import Mathlib

/-! Talon status plugin for the Stream Deck: status store and key reconciler.

A shallow embedding of `MyStreamDeckPlugin.cpp`, `MyStreamDeckPlugin.h` and the
file-event filter of `main.cpp`.

* A `std::string` is the list of its characters (`Str`).
* A `std::set<std::string>` is a `Finset Str`: the code only inserts into the
  sets, clears them, move-assigns them and tests membership with `find`.
* The `std::map<std::string, KeyInfo>` is the list of its entries in iteration
  order (ascending key order, unique keys).
* `size_t` values are natural numbers; the one subtraction of the code wraps
  modulo `2 ^ 64`.
* The calls made on `mConnectionManager` are returned as a list, in the order
  in which they are issued. Writes to `std::cout` / `std::cerr` are not part of
  the model.
* The interpreter spawned by `ExecuteTalonReplAction` is seen through the C library
  calls made on it; what `popen` and `fputs` return is a parameter (`ReplOutcome`).
* The mutex is not part of the state; the locking discipline is checked on the
  sequence of guard constructions and member accesses of each method
  (`Access`, `lockDiscipline`).
* The status file is an `Option Str`: `none` when the stream is not `good()`
  after opening, `some content` otherwise.
-/

namespace TalonStreamDeck

/-! ## Strings and `size_t` -/

/-- A `std::string`, as the list of its characters. -/
abbrev Str := List Char

/-- The space character, the needle of `line.find(" ")`. -/
def SPACE : Char := Char.ofNat 32

/-- The line feed, the delimiter of `std::getline`. -/
def NEWLINE : Char := Char.ofNat 10

/-- The number of `size_t` values on the 64-bit target. -/
def SIZE_MOD : Nat := 2 ^ 64

/-- The constant `std::string::npos`, the largest `size_t`. -/
def npos : Nat := SIZE_MOD - 1

/-- Unsigned subtraction `a - b` on `size_t`, wrapping modulo `2 ^ 64`. -/
def sizeSub (a b : Nat) : Nat := (a % SIZE_MOD + (SIZE_MOD - b % SIZE_MOD)) % SIZE_MOD

/-- Search of `std::string::find` for one character, from index `i` on. -/
def findFrom (c : Char) : Str → Nat → Nat
  | [], _ => npos
  | x :: xs, i => if x = c then i else findFrom c xs (i + 1)

/-- The call `line.find(" ")`: index of the first space, or `npos`. -/
def find (line : Str) (c : Char) : Nat := findFrom c line 0

/-- The call `line.substr(pos, count)` for `pos` within the string. -/
def substr (line : Str) (pos count : Nat) : Str := (line.drop pos).take count

/-- The call `line.substr(pos)` for `pos` within the string. -/
def substrFrom (line : Str) (pos : Nat) : Str := line.drop pos

/-- The literal `"end"`, the terminator line. -/
def endLine : Str := ['e', 'n', 'd']

/-- The literal `"mode"`. -/
def typeMode : Str := ['m', 'o', 'd', 'e']

/-- The literal `"tag"`. -/
def typeTag : Str := ['t', 'a', 'g']

/-- The literal `"app"`. -/
def typeApp : Str := ['a', 'p', 'p']

/-- The constant `StatusFileName` of `MyStreamDeckPlugin.h`. -/
def StatusFileName : Str := "talon-status".toList

/-! ## Data model -/

/-- The record `KeyInfo` of `MyStreamDeckPlugin.h`. -/
structure KeyInfo where
  /-- Field `action`. -/
  action : Str := []
  /-- Field `deviceId`. -/
  deviceId : Str := []
  /-- Field `monitorValue`. -/
  monitorValue : Str := []
  /-- Field `pressAction`. -/
  pressAction : Str := []
  /-- Field `row`. -/
  row : Int := -1
  /-- Field `column`. -/
  column : Int := -1
  deriving DecidableEq

/-- Modelled from the spec: the `ESDSDKTarget` enumeration of the Stream Deck SDK, whose
header is not part of the sources; the label scope is one of hardware, software, both. -/
inductive ESDSDKTarget where
  | HardwareAndSoftware
  | HardwareOnly
  | SoftwareOnly
  deriving DecidableEq

/-- An outbound call on `mConnectionManager`. -/
inductive Call where
  /-- The call `SetState(state, context)`. -/
  | SetState (state : Nat) (context : Str)
  /-- The call `SetTitle(title, context, target)`. -/
  | SetTitle (title : Str) (context : Str) (target : ESDSDKTarget)
  deriving DecidableEq

/-- Three sets of strings: the locals `modes`, `tags`, `apps` of `UpdateStatus`, and the
members `_modes`, `_tags`, `_apps` seen as one value. -/
structure Snapshot where
  /-- Active modes. -/
  modes : Finset Str
  /-- Active tags. -/
  tags : Finset Str
  /-- Active apps. -/
  apps : Finset Str
  deriving DecidableEq

/-- The data members of `MyStreamDeckPlugin`. -/
structure State where
  /-- Whether `mConnectionManager` is not `nullptr`. -/
  connected : Bool
  /-- Member `_modes`. -/
  modes : Finset Str
  /-- Member `_tags`. -/
  tags : Finset Str
  /-- Member `_apps`. -/
  apps : Finset Str
  /-- Member `_keysByContext`, as its entries in iteration order. -/
  keysByContext : List (Str × KeyInfo)
  deriving DecidableEq

/-- The three status sets of a plugin state. -/
def State.snapshot (s : State) : Snapshot := ⟨s.modes, s.tags, s.apps⟩

/-- The snapshot with three empty sets. -/
def Snapshot.cleared : Snapshot := ⟨∅, ∅, ∅⟩

/-! ## Status store -/

/-- The method `ClearStatus`. -/
def ClearStatus (s : State) : State :=
  { s with modes := ∅, tags := ∅, apps := ∅ }

/-- The loop `while (std::getline(file, readLine)) lines.push_back(readLine);` run on the
unread rest of the file, `cur` being the characters extracted so far by the pending
`getline`. A line feed ends the pending line; at the end of the file `getline` succeeds
when it extracted at least one character and fails otherwise. -/
def readLinesAux : Str → Str → List Str
  | cur, [] => if cur = [] then [] else [cur]
  | cur, c :: cs => if c = NEWLINE then cur :: readLinesAux [] cs else readLinesAux (cur ++ [c]) cs

/-- The vector `lines` read from a file with the given content. -/
def readLines (content : Str) : List Str := readLinesAux [] content

/-- One iteration of the loop `for (const auto &line : lines)` of `UpdateStatus`;
`none` stands for the paths that call `ClearStatus()` and return. -/
def parseLine (acc : Snapshot) (line : Str) : Option Snapshot :=
  let sepIndex := find line SPACE
  if sepIndex ≤ 0 ∨ sepIndex ≥ sizeSub line.length 1 ∨ sepIndex = npos then
    none
  else
    let entryType := substr line 0 sepIndex
    let entryValue := substrFrom line (sepIndex + 1)
    if entryType = typeMode then
      some { acc with modes := insert entryValue acc.modes }
    else if entryType = typeTag then
      some { acc with tags := insert entryValue acc.tags }
    else if entryType = typeApp then
      some { acc with apps := insert entryValue acc.apps }
    else
      none

/-- The loop `for (const auto &line : lines)` of `UpdateStatus`, from the given
accumulated sets. -/
def parseLines : List Str → Snapshot → Option Snapshot
  | [], acc => some acc
  | line :: rest, acc =>
    match parseLine acc line with
    | none => none
    | some acc1 => parseLines rest acc1

/-! ## Key reconciler -/

/-- The method `UpdateSpeechStatusKey`. -/
def UpdateSpeechStatusKey (s : State) (context : Str) (_keyInfo : KeyInfo) : List Call :=
  let speechSleep := decide ("sleep".toList ∈ s.modes)
  let speechCommand := decide ("command".toList ∈ s.modes)
  if speechCommand then
    [Call.SetState 0 context]
  else if speechSleep then
    [Call.SetState 1 context]
  else
    [Call.SetState 1 context,
     Call.SetTitle "No Status".toList context ESDSDKTarget.HardwareAndSoftware]

/-- The method `UpdateTagStatusKey`. -/
def UpdateTagStatusKey (s : State) (context : Str) (keyInfo : KeyInfo) : List Call :=
  (if keyInfo.monitorValue.isEmpty then
    [Call.SetState 1 context,
     Call.SetTitle "No Tag".toList context ESDSDKTarget.HardwareAndSoftware]
   else []) ++
  let tagActive := decide (keyInfo.monitorValue ∈ s.tags)
  [Call.SetState (if tagActive then 0 else 1) context]

/-- The method `UpdateModeStatusKey`. -/
def UpdateModeStatusKey (s : State) (context : Str) (keyInfo : KeyInfo) : List Call :=
  (if keyInfo.monitorValue.isEmpty then
    [Call.SetState 1 context,
     Call.SetTitle "No Mode".toList context ESDSDKTarget.HardwareAndSoftware]
   else []) ++
  let modeActive := decide (keyInfo.monitorValue ∈ s.modes)
  [Call.SetState (if modeActive then 0 else 1) context]

/-- The method `UpdateAppStatusKey`. -/
def UpdateAppStatusKey (s : State) (context : Str) (keyInfo : KeyInfo) : List Call :=
  (if keyInfo.monitorValue.isEmpty then
    [Call.SetState 1 context,
     Call.SetTitle "No App".toList context ESDSDKTarget.HardwareAndSoftware]
   else []) ++
  let appActive := decide (keyInfo.monitorValue ∈ s.apps)
  [Call.SetState (if appActive then 0 else 1) context]

/-- The body of the loop of `UpdateKeys`: the dispatch on `keyInfo.action`. -/
def UpdateKey (s : State) (context : Str) (keyInfo : KeyInfo) : List Call :=
  if keyInfo.action = "com.talon.speech.speechstatus".toList then
    UpdateSpeechStatusKey s context keyInfo
  else if keyInfo.action = "com.talon.speech.tagstatus".toList then
    UpdateTagStatusKey s context keyInfo
  else if keyInfo.action = "com.talon.speech.modestatus".toList then
    UpdateModeStatusKey s context keyInfo
  else if keyInfo.action = "com.talon.speech.appstatus".toList then
    UpdateAppStatusKey s context keyInfo
  else
    [Call.SetTitle "Unk Action".toList context ESDSDKTarget.HardwareAndSoftware]

/-- The method `UpdateKeys`. -/
def UpdateKeys (s : State) : List Call :=
  if s.connected = false ∨ s.keysByContext.isEmpty then
    []
  else
    s.keysByContext.flatMap (fun entry => UpdateKey s entry.1 entry.2)

/-- The method `UpdateStatus`, given what opening the status file yields: the new state
and the calls issued on `mConnectionManager`. -/
def UpdateStatus (file : Option Str) (s : State) : State × List Call :=
  match file with
  | none => (ClearStatus s, [])
  | some content =>
    let lines := readLines content
    if lines.isEmpty then
      (ClearStatus s, [])
    else if lines.getLast? ≠ some endLine then
      (ClearStatus s, [])
    else
      let lines := lines.dropLast
      match parseLines lines ⟨∅, ∅, ∅⟩ with
      | none => (ClearStatus s, [])
      | some parsed =>
        let s1 := { s with modes := parsed.modes, tags := parsed.tags, apps := parsed.apps }
        (s1, UpdateKeys s1)

/-! ## Button table and event handlers -/

/-- The order `operator<` of `std::string`: lexicographic on character codes. -/
def strLt : Str → Str → Bool
  | [], [] => false
  | [], _ :: _ => true
  | _ :: _, [] => false
  | a :: as, b :: bs =>
    if a.toNat < b.toNat then true
    else if b.toNat < a.toNat then false
    else strLt as bs

/-- The assignment `_keysByContext[inContext] = key` on the entries in key order. -/
def mapAssign (context : Str) (key : KeyInfo) : List (Str × KeyInfo) → List (Str × KeyInfo)
  | [] => [(context, key)]
  | entry :: rest =>
    if strLt context entry.1 then (context, key) :: entry :: rest
    else if strLt entry.1 context then entry :: mapAssign context key rest
    else (context, key) :: rest

/-- The call `_keysByContext.erase(inContext)`. -/
def mapErase (context : Str) (table : List (Str × KeyInfo)) : List (Str × KeyInfo) :=
  table.filter (fun entry => decide (entry.1 ≠ context))

/-- The call `_keysByContext.find(inContext)`; `none` stands for `end()`. -/
def mapFind (context : Str) (table : List (Str × KeyInfo)) : Option KeyInfo :=
  (table.find? (fun entry => decide (entry.1 = context))).map Prod.snd

/-- The object under the key `coordinates` of an event payload, as far as it is read. -/
structure Coordinates where
  /-- The value under `column`, when present. -/
  column : Option Int
  /-- The value under `row`, when present. -/
  row : Option Int
  deriving DecidableEq

/-- The object under the key `settings` of an event payload, as far as it is read. -/
structure Settings where
  /-- The value under `monitorValue`, when present. -/
  monitorValue : Option Str
  /-- The value under `pressAction`, when present. -/
  pressAction : Option Str
  deriving DecidableEq

/-- The JSON payload of a visibility event, as far as `WillAppearForAction` reads it. -/
structure Payload where
  /-- The value under `coordinates`, when present. -/
  coordinates : Option Coordinates
  /-- The value under `settings`, when present. -/
  settings : Option Settings
  deriving DecidableEq

/-- The `KeyInfo` that `WillAppearForAction` builds from its arguments. -/
def keyOfPayload (inAction : Str) (inPayload : Payload) (inDeviceID : Str) : KeyInfo :=
  let key : KeyInfo := { action := inAction, deviceId := inDeviceID }
  let key : KeyInfo :=
    match inPayload.coordinates with
    | some ⟨some column, some row⟩ => { key with column := column, row := row }
    | _ => key
  match inPayload.settings with
  | some settings =>
    let key : KeyInfo :=
      match settings.monitorValue with
      | some v => { key with monitorValue := v }
      | none => key
    match settings.pressAction with
    | some v => { key with pressAction := v }
    | none => key
  | none => key

/-- The method `WillAppearForAction`. -/
def WillAppearForAction (inAction inContext : Str) (inPayload : Payload) (inDeviceID : Str)
    (s : State) : State × List Call :=
  let key := keyOfPayload inAction inPayload inDeviceID
  let s1 := { s with keysByContext := mapAssign inContext key s.keysByContext }
  (s1, UpdateKeys s1)

/-- The method `WillDisappearForAction`. -/
def WillDisappearForAction (inContext : Str) (s : State) : State × List Call :=
  let s1 := { s with keysByContext := mapErase inContext s.keysByContext }
  (s1, UpdateKeys s1)

/-- The NUL character, which ends the C string returned by `c_str()`. -/
def NUL : Char := Char.ofNat 0

/-- What the C library calls of `ExecuteTalonReplAction` return: whether `popen` yields a
stream (`fp != NULL`) and whether `fputs` yields a non-negative value. The result of
`pclose` only selects a message on `std::cout` and is left out. -/
structure ReplOutcome where
  /-- The call `popen` succeeds. -/
  popenOk : Bool
  /-- The call `fputs` succeeds. -/
  fputsOk : Bool
  deriving DecidableEq

/-- A C library call made by `ExecuteTalonReplAction` on the interpreter. -/
inductive ReplCall where
  /-- The call `popen(command, mode)`, which spawns the interpreter. -/
  | popen (command : Str) (mode : Str)
  /-- The call `fputs(text, fp)`, `text` being the C string that is written. -/
  | fputs (text : Str)
  /-- The call `pclose(fp)`. -/
  | pclose
  deriving DecidableEq

/-- The constant `ReplPath` of `ExecuteTalonReplAction`. -/
def ReplPath : Str := "~/.talon/.venv/bin/repl".toList

/-- The C string `action.c_str()` as `fputs` reads it: the characters before the first
NUL. -/
def c_str (action : Str) : Str := action.takeWhile (fun c => decide (c ≠ NUL))

/-- The function `ExecuteTalonReplAction`: the calls it makes on the interpreter, in order.
It returns after a failed `popen` and after a failed `fputs`. -/
def ExecuteTalonReplAction (repl : ReplOutcome) (action : Str) : List ReplCall :=
  if repl.popenOk = false then
    [ReplCall.popen ReplPath "w".toList]
  else if repl.fputsOk = false then
    [ReplCall.popen ReplPath "w".toList, ReplCall.fputs (c_str action)]
  else
    [ReplCall.popen ReplPath "w".toList, ReplCall.fputs (c_str action), ReplCall.pclose]

/-- The method `KeyUpForAction`: the state it leaves and the calls made on the
interpreter, `repl` telling what `popen` and `fputs` return. -/
def KeyUpForAction (repl : ReplOutcome) (inContext : Str) (s : State) :
    State × List ReplCall :=
  match mapFind inContext s.keysByContext with
  | none => (s, [])
  | some keyInfo =>
    let action := keyInfo.pressAction
    if ¬ action.isEmpty then (s, ExecuteTalonReplAction repl action) else (s, [])

/-! ## File-event filter -/

/-- The function `EndsWith` of `main.cpp`. -/
def EndsWith (haystack needle : Str) : Bool :=
  if haystack.length < needle.length then
    false
  else
    decide (substr haystack (haystack.length - needle.length) needle.length = needle)

/-- The function `FileSystemEventsCallback` of `main.cpp`, given the changed paths and what
opening the status file yields. -/
def FileSystemEventsCallback (paths : List Str) (file : Option Str) (s : State) :
    State × List Call :=
  let fileSuffix := "/".toList ++ StatusFileName
  let found := paths.any (fun path => EndsWith path fileSuffix)
  if ¬ found then
    (s, [])
  else
    UpdateStatus file s

/-! ## Notions used to state the properties -/

/-- A status line of the documented form: a type `T` among `mode`, `tag`, `app`, one
space, and a non-empty value `V`. -/
def WellFormedLine (line : Str) : Prop :=
  ∃ T V : Str, (T = typeMode ∨ T = typeTag ∨ T = typeApp) ∧ V ≠ [] ∧ line = T ++ SPACE :: V

/-- The button a call is addressed to. -/
def Call.context : Call → Str
  | Call.SetState _ context => context
  | Call.SetTitle _ context _ => context

/-- The display state a sequence of calls leaves the button `context` in: the state index
of the last `SetState` addressed to it, if there is one. -/
def displayState (context : Str) : List Call → Option Nat
  | [] => none
  | call :: rest =>
    match displayState context rest with
    | some state => some state
    | none =>
      match call with
      | Call.SetState state ctx => if ctx = context then some state else none
      | Call.SetTitle _ _ _ => none

/-! ## Concrete inputs -/

/-- A prior plugin state with a connection, non-empty status sets and three visible keys. -/
def sampleState : State :=
  { connected := true
    modes := {"dictation".toList}
    tags := {"user.old".toList}
    apps := {"Finder".toList}
    keysByContext :=
      [("ctxA".toList, { action := "com.talon.speech.modestatus".toList,
                         monitorValue := "sleep".toList }),
       ("ctxB".toList, { action := "com.talon.speech.tagstatus".toList,
                         monitorValue := "anything".toList }),
       ("ctxC".toList, { action := "com.talon.speech.speechstatus".toList })] }

/-- A well-formed status file: a value with spaces, a duplicated line, no final line feed. -/
def sampleContent : Str :=
  "mode sleep\ntag user my tag\napp Slack\nmode sleep\nend".toList

/-- The lines of `sampleContent` before the terminator. -/
def sampleBody : List Str :=
  ["mode sleep".toList, "tag user my tag".toList, "app Slack".toList, "mode sleep".toList]

/-- The lines of `sampleContent` reordered and without the duplicate. -/
def sampleContentPermuted : Str :=
  "app Slack\nmode sleep\ntag user my tag\nend\n".toList

/-- The lines of `sampleContentPermuted` before the terminator. -/
def sampleBodyPermuted : List Str :=
  ["app Slack".toList, "mode sleep".toList, "tag user my tag".toList]

/-- A state whose tag, mode and app sets all hold the empty string; the parser never
produces such a set. -/
def emptyMemberState : State :=
  { connected := true, modes := {[]}, tags := {[]}, apps := {[]}, keysByContext := [] }

/-- The status file of the example of the specification. -/
def slackContent : Str := "mode sleep\napp Slack\nend".toList

/-! ## Runs of the plugin -/

/-- An operation on the plugin, with the arguments it reads. -/
inductive Event where
  /-- A call of `UpdateStatus`, with what opening the status file yields at that time. -/
  | updateStatus (file : Option Str)
  /-- A call of `ClearStatus`. -/
  | clearStatus
  /-- A call of `WillAppearForAction`. -/
  | willAppear (inAction inContext : Str) (inPayload : Payload) (inDeviceID : Str)
  /-- A call of `WillDisappearForAction`. -/
  | willDisappear (inContext : Str)
  /-- A call of `KeyUpForAction`, with what `popen` and `fputs` return at that time. -/
  | keyUp (repl : ReplOutcome) (inContext : Str)

/-- The state an operation leaves. -/
def Event.apply : Event → State → State
  | Event.updateStatus file, s => (UpdateStatus file s).1
  | Event.clearStatus, s => ClearStatus s
  | Event.willAppear inAction inContext inPayload inDeviceID, s =>
    (WillAppearForAction inAction inContext inPayload inDeviceID s).1
  | Event.willDisappear inContext, s => (WillDisappearForAction inContext s).1
  | Event.keyUp repl inContext, s => (KeyUpForAction repl inContext s).1

/-- The state after a sequence of operations, run in order. -/
def runEvents : List Event → State → State
  | [], s => s
  | event :: rest, s => runEvents rest (event.apply s)

/-- The state of a freshly constructed plugin: empty sets and an empty button table;
`connected` tells whether the SDK has set `mConnectionManager`. -/
def initialState (connected : Bool) : State :=
  { connected := connected, modes := ∅, tags := ∅, apps := ∅, keysByContext := [] }

/-! ## Locking discipline -/

/-- The steps of a method that matter for the locking discipline: taking and releasing
`_mutex`, and reading or writing the status sets or `_keysByContext`. -/
inductive Access where
  /-- Construction of a `std::lock_guard` on `_mutex`. -/
  | acquire
  /-- Destruction of the `std::lock_guard`. -/
  | release
  /-- A read of `_modes`, `_tags` or `_apps`. -/
  | readStatus
  /-- A write of `_modes`, `_tags` or `_apps`. -/
  | writeStatus
  /-- A read of `_keysByContext`. -/
  | readKeys
  /-- A write of `_keysByContext`. -/
  | writeKeys
  deriving DecidableEq

/-- The accesses of `ClearStatus`: the guard, then the three `clear()` calls. -/
def ClearStatusAccesses : List Access :=
  [Access.acquire, Access.writeStatus, Access.writeStatus, Access.writeStatus, Access.release]

/-- The accesses of the loop body of `UpdateKeys` for one entry: the four status helpers
each search one of the sets, the unknown-action branch reads none. -/
def UpdateKeyAccesses (keyInfo : KeyInfo) : List Access :=
  if keyInfo.action = "com.talon.speech.speechstatus".toList then
    [Access.readStatus, Access.readStatus]
  else if keyInfo.action = "com.talon.speech.tagstatus".toList then
    [Access.readStatus]
  else if keyInfo.action = "com.talon.speech.modestatus".toList then
    [Access.readStatus]
  else if keyInfo.action = "com.talon.speech.appstatus".toList then
    [Access.readStatus]
  else
    []

/-- The accesses of `UpdateKeys`, which takes no guard itself: the test
`_keysByContext.empty()`, then the iteration over the table. -/
def UpdateKeysAccesses (s : State) : List Access :=
  if s.connected = false then
    []
  else if s.keysByContext.isEmpty then
    [Access.readKeys]
  else
    Access.readKeys ::
      s.keysByContext.flatMap (fun entry => Access.readKeys :: UpdateKeyAccesses entry.2)

/-- The accesses of `UpdateStatus`: the failure paths call `ClearStatus`, the success path
takes the guard, assigns the three sets and calls `UpdateKeys`. -/
def UpdateStatusAccesses (file : Option Str) (s : State) : List Access :=
  match file with
  | none => ClearStatusAccesses
  | some content =>
    let lines := readLines content
    if lines.isEmpty then
      ClearStatusAccesses
    else if lines.getLast? ≠ some endLine then
      ClearStatusAccesses
    else
      match parseLines lines.dropLast ⟨∅, ∅, ∅⟩ with
      | none => ClearStatusAccesses
      | some parsed =>
        let s1 := { s with modes := parsed.modes, tags := parsed.tags, apps := parsed.apps }
        [Access.acquire, Access.writeStatus, Access.writeStatus, Access.writeStatus] ++
          UpdateKeysAccesses s1 ++ [Access.release]

/-- The accesses of `WillAppearForAction`: the guard on entry, the assignment into the
table, `UpdateKeys`. -/
def WillAppearForActionAccesses (inAction inContext : Str) (inPayload : Payload)
    (inDeviceID : Str) (s : State) : List Access :=
  [Access.acquire, Access.writeKeys] ++
    UpdateKeysAccesses (WillAppearForAction inAction inContext inPayload inDeviceID s).1 ++
    [Access.release]

/-- The accesses of `WillDisappearForAction`: the guard on entry, the `erase`,
`UpdateKeys`. -/
def WillDisappearForActionAccesses (inContext : Str) (s : State) : List Access :=
  [Access.acquire, Access.writeKeys] ++
    UpdateKeysAccesses (WillDisappearForAction inContext s).1 ++ [Access.release]

/-- The accesses of `KeyUpForAction`: no guard is constructed; `_keysByContext.find` and
the comparison with `end()` read the table, and so does reading `pressAction` through the
iterator when an entry was found. -/
def KeyUpForActionAccesses (inContext : Str) (s : State) : List Access :=
  match mapFind inContext s.keysByContext with
  | none => [Access.readKeys]
  | some _ => [Access.readKeys, Access.readKeys]

/-- Whether a sequence of accesses respects the discipline, `held` telling whether the
mutex is held at its start: the mutex is taken only when not held, released only when
held, and the protected members are read and written only while it is held. -/
def lockDiscipline : Bool → List Access → Bool
  | _, [] => true
  | held, Access.acquire :: rest => !held && lockDiscipline true rest
  | held, Access.release :: rest => held && lockDiscipline false rest
  | held, Access.readStatus :: rest => held && lockDiscipline held rest
  | held, Access.writeStatus :: rest => held && lockDiscipline held rest
  | held, Access.readKeys :: rest => held && lockDiscipline held rest
  | held, Access.writeKeys :: rest => held && lockDiscipline held rest

/-! ## Further notions and inputs for the properties -/

/-- The carriage return. -/
def CR : Char := Char.ofNat 13

/-- The text of a file body: every line followed by a line feed. -/
def bodyText (body : List Str) : Str := body.flatMap (fun line => line ++ [NEWLINE])

/-- A payload with coordinates and both settings. -/
def samplePayload : Payload :=
  { coordinates := some { column := some 2, row := some 1 }
    settings := some { monitorValue := some "sleep".toList,
                       pressAction := some "actions.speech.toggle()".toList } }

/-- The state `sampleState` with a press action configured on the key `ctxB`. -/
def pressState : State :=
  { sampleState with
    keysByContext :=
      [("ctxA".toList, { action := "com.talon.speech.modestatus".toList,
                         monitorValue := "sleep".toList }),
       ("ctxB".toList, { action := "com.talon.speech.tagstatus".toList,
                         monitorValue := "anything".toList,
                         pressAction := "actions.speech.toggle()".toList })] }

/-- A button table whose key `ctxN` has a press action with a NUL after its first
character, as the JSON string `a\u0000b` of the settings yields. -/
def nulPressState : State :=
  { sampleState with
    keysByContext :=
      [("ctxN".toList, { action := "com.talon.speech.tagstatus".toList,
                         pressAction := ['a', NUL, 'b'] })] }

/-! ## Lemmas on the parser -/

theorem findFrom_of_not_mem (c : Char) (l : Str) (i : Nat) (h : c ∉ l) :
    findFrom c l i = npos := by
  induction l generalizing i with
  | nil => rfl
  | cons x xs ih =>
    have hx : x ≠ c := fun e => h (by simp [e])
    have hxs : c ∉ xs := fun e => h (by simp [e])
    simp [findFrom, hx, ih (i + 1) hxs]

theorem findFrom_append (c : Char) (p r : Str) (i : Nat) (h : c ∉ p) :
    findFrom c (p ++ c :: r) i = i + p.length := by
  induction p generalizing i with
  | nil => simp [findFrom]
  | cons x xs ih =>
    have hx : x ≠ c := fun e => h (by simp [e])
    have hxs : c ∉ xs := fun e => h (by simp [e])
    simp [findFrom, hx, ih (i + 1) hxs]
    omega

theorem find_append (p r : Str) (h : SPACE ∉ p) : find (p ++ SPACE :: r) SPACE = p.length := by
  simp [find, findFrom_append SPACE p r 0 h]

theorem sizeSub_succ_one_le (n : Nat) : sizeSub (n + 1) 1 ≤ n := by
  unfold sizeSub SIZE_MOD
  omega

theorem sizeSub_one_of_lt (n : Nat) (h0 : 0 < n) (h : n < SIZE_MOD) : sizeSub n 1 = n - 1 := by
  unfold sizeSub
  unfold SIZE_MOD at *
  omega

theorem parseLine_append (acc : Snapshot) (p r : Str) (h : SPACE ∉ p) :
    parseLine acc (p ++ SPACE :: r) =
      if p.length ≤ 0 ∨ p.length ≥ sizeSub (p ++ SPACE :: r).length 1 ∨ p.length = npos then none
      else if p = typeMode then some { acc with modes := insert r acc.modes }
      else if p = typeTag then some { acc with tags := insert r acc.tags }
      else if p = typeApp then some { acc with apps := insert r acc.apps }
      else none := by
  have hsub : substr (p ++ SPACE :: r) 0 p.length = p := by simp [substr]
  have hfrom : substrFrom (p ++ SPACE :: r) (p.length + 1) = r := by
    simp [substrFrom, List.drop_append]
  simp only [parseLine, find_append p r h, hsub, hfrom]

theorem parseLine_no_space (acc : Snapshot) (line : Str) (h : SPACE ∉ line) :
    parseLine acc line = none := by
  simp [parseLine, find, findFrom_of_not_mem SPACE line 0 h]

theorem parseLine_space_first (acc : Snapshot) (r : Str) :
    parseLine acc (SPACE :: r) = none := by
  have := parseLine_append acc [] r (by simp)
  simpa using this

theorem parseLine_space_last (acc : Snapshot) (p : Str) (h : SPACE ∉ p) :
    parseLine acc (p ++ [SPACE]) = none := by
  rw [parseLine_append acc p [] h]
  have := sizeSub_succ_one_le p.length
  simp [this]

theorem parseLine_unknown_type (acc : Snapshot) (p r : Str) (h : SPACE ∉ p)
    (hm : p ≠ typeMode) (ht : p ≠ typeTag) (ha : p ≠ typeApp) :
    parseLine acc (p ++ SPACE :: r) = none := by
  rw [parseLine_append acc p r h]
  simp [hm, ht, ha]

theorem parseLines_none_of_mem (body : List Str) (line : Str) (hmem : line ∈ body)
    (hbad : ∀ acc, parseLine acc line = none) (acc : Snapshot) :
    parseLines body acc = none := by
  induction body generalizing acc with
  | nil => simp at hmem
  | cons l rest ih =>
    rcases List.mem_cons.mp hmem with e | hin
    · subst e
      simp [parseLines, hbad acc]
    · cases hl : parseLine acc l with
      | none => simp [parseLines, hl]
      | some acc1 => simp [parseLines, hl, ih hin acc1]

theorem UpdateStatus_of_lines (content : Str) (body : List Str) (s : State)
    (h : readLines content = body ++ [endLine]) :
    UpdateStatus (some content) s =
      match parseLines body ⟨∅, ∅, ∅⟩ with
      | none => (ClearStatus s, [])
      | some parsed =>
        ({ s with modes := parsed.modes, tags := parsed.tags, apps := parsed.apps },
          UpdateKeys { s with modes := parsed.modes, tags := parsed.tags, apps := parsed.apps }) := by
  simp [UpdateStatus, h]

theorem parseLine_wellFormed (acc : Snapshot) (T V : Str) (hT : T = typeMode ∨ T = typeTag ∨ T = typeApp)
    (hV : V ≠ []) (hlen : (T ++ SPACE :: V).length < SIZE_MOD) :
    parseLine acc (T ++ SPACE :: V) =
      if T = typeMode then some { acc with modes := insert V acc.modes }
      else if T = typeTag then some { acc with tags := insert V acc.tags }
      else some { acc with apps := insert V acc.apps } := by
  have hsp : SPACE ∉ T := by rcases hT with rfl | rfl | rfl <;> decide
  have hTl : 3 ≤ T.length ∧ T.length ≤ 4 := by rcases hT with rfl | rfl | rfl <;> decide
  have hVl : 0 < V.length := List.length_pos.mpr hV
  have hsub := sizeSub_one_of_lt (T ++ SPACE :: V).length (by simp) hlen
  have hl : (T ++ SPACE :: V).length = T.length + (V.length + 1) := by simp
  have hnp : T.length ≠ npos := by
    have : npos = 18446744073709551615 := by decide
    omega
  have hcond : ¬ (T.length ≤ 0 ∨ T.length ≥ sizeSub (T ++ SPACE :: V).length 1 ∨
      T.length = npos) := by
    rw [hsub, hl]
    omega
  rw [parseLine_append acc T V hsp, if_neg hcond]
  rcases hT with rfl | rfl | rfl <;> simp [typeMode, typeTag, typeApp]

theorem mem_cons_typed (T U v V : Str) (rest : List Str)
    (hT : T = typeMode ∨ T = typeTag ∨ T = typeApp)
    (hU : U = typeMode ∨ U = typeTag ∨ U = typeApp) :
    T ++ SPACE :: v ∈ (U ++ SPACE :: V) :: rest ↔
      (T = U ∧ v = V) ∨ T ++ SPACE :: v ∈ rest := by
  rw [List.mem_cons]
  have key : T ++ SPACE :: v = U ++ SPACE :: V ↔ (T = U ∧ v = V) := by
    constructor
    · intro h
      rcases hT with rfl | rfl | rfl <;> rcases hU with rfl | rfl | rfl <;>
        simp_all [typeMode, typeTag, typeApp, SPACE]
    · rintro ⟨rfl, rfl⟩
      rfl
  rw [key]

theorem or_shuffle (a b c : Prop) : ((a ∨ b) ∨ c) ↔ (b ∨ a ∨ c) := by
  rw [or_assoc, or_left_comm]

theorem parseLines_wellFormed (body : List Str)
    (hwf : ∀ line ∈ body, WellFormedLine line)
    (hlen : ∀ line ∈ body, line.length < SIZE_MOD) (acc : Snapshot) :
    ∃ out, parseLines body acc = some out ∧
      (∀ v, v ∈ out.modes ↔ v ∈ acc.modes ∨ typeMode ++ SPACE :: v ∈ body) ∧
      (∀ v, v ∈ out.tags ↔ v ∈ acc.tags ∨ typeTag ++ SPACE :: v ∈ body) ∧
      (∀ v, v ∈ out.apps ↔ v ∈ acc.apps ∨ typeApp ++ SPACE :: v ∈ body) := by
  have hmt : typeMode ≠ typeTag := by decide
  have hma : typeMode ≠ typeApp := by decide
  have hta : typeTag ≠ typeApp := by decide
  induction body generalizing acc with
  | nil => exact ⟨acc, rfl, by simp, by simp, by simp⟩
  | cons line rest ih =>
    obtain ⟨T, V, hT, hV, rfl⟩ := hwf line (by simp)
    have hline := parseLine_wellFormed acc T V hT hV (hlen _ (by simp))
    have hwf1 : ∀ l ∈ rest, WellFormedLine l := fun l hl => hwf l (by simp [hl])
    have hlen1 : ∀ l ∈ rest, l.length < SIZE_MOD := fun l hl => hlen l (by simp [hl])
    have hM := fun v => mem_cons_typed typeMode T v V rest (Or.inl rfl) hT
    have hG := fun v => mem_cons_typed typeTag T v V rest (Or.inr (Or.inl rfl)) hT
    have hA := fun v => mem_cons_typed typeApp T v V rest (Or.inr (Or.inr rfl)) hT
    clear hwf hlen
    rcases hT with rfl | rfl | rfl
    · rw [if_pos rfl] at hline
      obtain ⟨out, ho, hm, ht, ha⟩ := ih hwf1 hlen1 { acc with modes := insert V acc.modes }
      have hp : parseLines ((typeMode ++ SPACE :: V) :: rest) acc = some out := by
        rw [parseLines, hline]
        exact ho
      refine ⟨out, hp, ?_, ?_, ?_⟩
      · intro v
        rw [hm v, hM v]
        show (v ∈ insert V acc.modes ∨ _) ↔ _
        rw [Finset.mem_insert]
        simp only [true_and]
        exact or_shuffle _ _ _
      · intro v
        rw [ht v, hG v]
        simp only [hmt.symm, false_and, false_or]
      · intro v
        rw [ha v, hA v]
        simp only [hma.symm, false_and, false_or]
    · rw [if_neg hmt.symm, if_pos rfl] at hline
      obtain ⟨out, ho, hm, ht, ha⟩ := ih hwf1 hlen1 { acc with tags := insert V acc.tags }
      have hp : parseLines ((typeTag ++ SPACE :: V) :: rest) acc = some out := by
        rw [parseLines, hline]
        exact ho
      refine ⟨out, hp, ?_, ?_, ?_⟩
      · intro v
        rw [hm v, hM v]
        simp only [hmt, false_and, false_or]
      · intro v
        rw [ht v, hG v]
        show (v ∈ insert V acc.tags ∨ _) ↔ _
        rw [Finset.mem_insert]
        simp only [true_and]
        exact or_shuffle _ _ _
      · intro v
        rw [ha v, hA v]
        simp only [hta.symm, false_and, false_or]
    · rw [if_neg hma.symm, if_neg hta.symm] at hline
      obtain ⟨out, ho, hm, ht, ha⟩ := ih hwf1 hlen1 { acc with apps := insert V acc.apps }
      have hp : parseLines ((typeApp ++ SPACE :: V) :: rest) acc = some out := by
        rw [parseLines, hline]
        exact ho
      refine ⟨out, hp, ?_, ?_, ?_⟩
      · intro v
        rw [hm v, hM v]
        simp only [hma, false_and, false_or]
      · intro v
        rw [ht v, hG v]
        simp only [hta, false_and, false_or]
      · intro v
        rw [ha v, hA v]
        show (v ∈ insert V acc.apps ∨ _) ↔ _
        rw [Finset.mem_insert]
        simp only [true_and]
        exact or_shuffle _ _ _

theorem UpdateStatus_of_parse_none (content : Str) (s : State)
    (h : parseLines (readLines content).dropLast ⟨∅, ∅, ∅⟩ = none) :
    UpdateStatus (some content) s = (ClearStatus s, []) := by
  unfold UpdateStatus
  simp only
  split_ifs
  · rfl
  · rfl
  · rw [h]

theorem UpdateStatus_snapshot_indep (file : Option Str) (s s2 : State) :
    (UpdateStatus file s).1.snapshot = (UpdateStatus file s2).1.snapshot := by
  unfold UpdateStatus
  cases file with
  | none => rfl
  | some content =>
    simp only
    split_ifs
    · rfl
    · rfl
    · cases parseLines (readLines content).dropLast ⟨∅, ∅, ∅⟩ <;> rfl

theorem UpdateStatus_wellFormed (content : Str) (body : List Str) (s : State)
    (hlines : readLines content = body ++ [endLine])
    (hwf : ∀ line ∈ body, WellFormedLine line)
    (hlen : ∀ line ∈ body, line.length < SIZE_MOD) :
    ∃ out, parseLines body ⟨∅, ∅, ∅⟩ = some out ∧
      UpdateStatus (some content) s =
        ({ s with modes := out.modes, tags := out.tags, apps := out.apps },
          UpdateKeys { s with modes := out.modes, tags := out.tags, apps := out.apps }) ∧
      (∀ v, v ∈ out.modes ↔ typeMode ++ SPACE :: v ∈ body) ∧
      (∀ v, v ∈ out.tags ↔ typeTag ++ SPACE :: v ∈ body) ∧
      (∀ v, v ∈ out.apps ↔ typeApp ++ SPACE :: v ∈ body) := by
  obtain ⟨out, ho, hm, ht, ha⟩ := parseLines_wellFormed body hwf hlen ⟨∅, ∅, ∅⟩
  refine ⟨out, ho, ?_, ?_, ?_, ?_⟩
  · rw [UpdateStatus_of_lines content body s hlines, ho]
  · intro v
    rw [hm v]
    simp only [Finset.not_mem_empty, false_or]
  · intro v
    rw [ht v]
    simp only [Finset.not_mem_empty, false_or]
  · intro v
    rw [ha v]
    simp only [Finset.not_mem_empty, false_or]

/-! ## Status store: the properties -/

/-- C1: for a status file whose lines are zero or more lines `T + ' ' + V` (with `T` among
`mode`, `tag`, `app` and `V` non-empty, each line a string whose length is a `size_t`)
followed by the line `end`, `UpdateStatus` stores in modes, tags and apps exactly the values
`V` occurring with `T = mode`, `tag` and `app`, where `V` is everything after the first
space; any other such file with the same set of body lines (a permutation, or the same
lines with duplicates added or removed) yields the same three sets, from any prior state. -/
theorem UpdateStatus_wellFormed_sets (content : Str) (body : List Str) (s : State)
    (hlines : readLines content = body ++ [endLine])
    (hwf : ∀ line ∈ body, WellFormedLine line)
    (hlen : ∀ line ∈ body, line.length < SIZE_MOD) :
    (∀ v, v ∈ (UpdateStatus (some content) s).1.modes ↔ typeMode ++ SPACE :: v ∈ body) ∧
    (∀ v, v ∈ (UpdateStatus (some content) s).1.tags ↔ typeTag ++ SPACE :: v ∈ body) ∧
    (∀ v, v ∈ (UpdateStatus (some content) s).1.apps ↔ typeApp ++ SPACE :: v ∈ body) ∧
    (∀ (content2 : Str) (body2 : List Str) (s2 : State),
      readLines content2 = body2 ++ [endLine] →
      (body2.Perm body ∨ ∀ line, line ∈ body2 ↔ line ∈ body) →
      (UpdateStatus (some content2) s2).1.snapshot =
        (UpdateStatus (some content) s).1.snapshot) := by
  obtain ⟨out, _, hu, hm, ht, ha⟩ := UpdateStatus_wellFormed content body s hlines hwf hlen
  refine ⟨?_, ?_, ?_, ?_⟩
  · intro v
    rw [hu]
    exact hm v
  · intro v
    rw [hu]
    exact ht v
  · intro v
    rw [hu]
    exact ha v
  · intro content2 body2 s2 hlines2 hsame
    have hmem : ∀ line, line ∈ body2 ↔ line ∈ body := by
      rcases hsame with hperm | h
      · exact fun line => hperm.mem_iff
      · exact h
    have hwf2 : ∀ line ∈ body2, WellFormedLine line :=
      fun line hl => hwf line ((hmem line).mp hl)
    have hlen2 : ∀ line ∈ body2, line.length < SIZE_MOD :=
      fun line hl => hlen line ((hmem line).mp hl)
    obtain ⟨out2, _, hu2, hm2, ht2, ha2⟩ :=
      UpdateStatus_wellFormed content2 body2 s2 hlines2 hwf2 hlen2
    rw [hu, hu2]
    have e1 : out2.modes = out.modes := Finset.ext fun v => by rw [hm2 v, hm v, hmem]
    have e2 : out2.tags = out.tags := Finset.ext fun v => by rw [ht2 v, ht v, hmem]
    have e3 : out2.apps = out.apps := Finset.ext fun v => by rw [ha2 v, ha v, hmem]
    simp only [State.snapshot, e1, e2, e3]

theorem sampleBody_wellFormed : ∀ line ∈ sampleBody, WellFormedLine line := by
  intro line h
  simp only [sampleBody, List.mem_cons, List.mem_singleton, List.not_mem_nil, or_false] at h
  rcases h with rfl | rfl | rfl | rfl
  · exact ⟨typeMode, "sleep".toList, Or.inl rfl, by decide, by decide⟩
  · exact ⟨typeTag, "user my tag".toList, Or.inr (Or.inl rfl), by decide, by decide⟩
  · exact ⟨typeApp, "Slack".toList, Or.inr (Or.inr rfl), by decide, by decide⟩
  · exact ⟨typeMode, "sleep".toList, Or.inl rfl, by decide, by decide⟩

/-- Witness of C1 on `sampleContent`: the hypotheses hold there, the value with spaces is
stored whole, and the reordered file without the duplicate gives the same sets. -/
theorem UpdateStatus_wellFormed_sets_witness :
    readLines sampleContent = sampleBody ++ [endLine] ∧
    (∀ line ∈ sampleBody, WellFormedLine line) ∧
    (∀ line ∈ sampleBody, line.length < SIZE_MOD) ∧
    "user my tag".toList ∈ (UpdateStatus (some sampleContent) sampleState).1.tags ∧
    (UpdateStatus (some sampleContentPermuted) (ClearStatus sampleState)).1.snapshot =
      (UpdateStatus (some sampleContent) sampleState).1.snapshot :=
  have h := UpdateStatus_wellFormed_sets sampleContent sampleBody sampleState (by decide)
    sampleBody_wellFormed (by decide)
  ⟨by decide, sampleBody_wellFormed, by decide, (h.2.1 _).mpr (by decide),
    h.2.2.2 sampleContentPermuted sampleBodyPermuted (ClearStatus sampleState) (by decide)
      (Or.inr fun line =>
        ⟨(by decide : ∀ x ∈ sampleBodyPermuted, x ∈ sampleBody) line,
          (by decide : ∀ x ∈ sampleBody, x ∈ sampleBodyPermuted) line⟩)⟩

/-- C2: for a status file that has no lines at all, or whose last line is not exactly
`end`, `UpdateStatus` leaves modes, tags and apps all empty, whatever the other lines and
the prior state are. -/
theorem UpdateStatus_unterminated (content : Str) (s : State)
    (h : readLines content = [] ∨ (readLines content).getLast? ≠ some endLine) :
    (UpdateStatus (some content) s).1.modes = ∅ ∧
    (UpdateStatus (some content) s).1.tags = ∅ ∧
    (UpdateStatus (some content) s).1.apps = ∅ := by
  have hu : UpdateStatus (some content) s = (ClearStatus s, []) := by
    unfold UpdateStatus
    simp only
    split_ifs with h1 h2
    · rfl
    · rfl
    · rcases h with h | h
      · rw [h] at h1
        exact absurd rfl h1
      · exact absurd h h2
  rw [hu]
  exact ⟨rfl, rfl, rfl⟩

/-- Witness of C2: the empty file, and a file of valid lines whose last line is not `end`,
both from a prior state with non-empty sets. -/
theorem UpdateStatus_unterminated_witness :
    readLines [] = [] ∧
    (readLines "mode sleep\napp Slack\n".toList).getLast? ≠ some endLine ∧
    (UpdateStatus (some []) sampleState).1.modes = ∅ ∧
    (UpdateStatus (some "mode sleep\napp Slack\n".toList) sampleState).1.modes = ∅ :=
  ⟨by decide, by decide,
    (UpdateStatus_unterminated [] sampleState (Or.inl (by decide))).1,
    (UpdateStatus_unterminated "mode sleep\napp Slack\n".toList sampleState
      (Or.inr (by decide))).1⟩

/-- C3: for a status file ending in the line `end`, if some line before the terminator has
no space (the empty line included, for which `line.length() - 1` wraps around to `npos`),
or has its first space as its first character, or has its first space as its last
character, then `UpdateStatus` leaves modes, tags and apps all
empty, whatever the other lines and the prior state are. -/
theorem UpdateStatus_bad_separator (content : Str) (body : List Str) (s : State)
    (line : Str) (hlines : readLines content = body ++ [endLine]) (hmem : line ∈ body)
    (hbad : SPACE ∉ line ∨ (∃ r, line = SPACE :: r) ∨ (∃ p, SPACE ∉ p ∧ line = p ++ [SPACE])) :
    (UpdateStatus (some content) s).1.modes = ∅ ∧
    (UpdateStatus (some content) s).1.tags = ∅ ∧
    (UpdateStatus (some content) s).1.apps = ∅ ∧
    sizeSub ([] : Str).length 1 = npos := by
  have hline : ∀ acc, parseLine acc line = none := by
    intro acc
    rcases hbad with h | ⟨r, rfl⟩ | ⟨p, hp, rfl⟩
    · exact parseLine_no_space acc line h
    · exact parseLine_space_first acc r
    · exact parseLine_space_last acc p hp
  have hnone : parseLines (readLines content).dropLast ⟨∅, ∅, ∅⟩ = none := by
    rw [hlines, List.dropLast_concat]
    exact parseLines_none_of_mem body line hmem hline _
  rw [UpdateStatus_of_parse_none content s hnone]
  exact ⟨rfl, rfl, rfl, by decide⟩

/-- Witness of C3: an empty line between two valid lines. -/
theorem UpdateStatus_bad_separator_witness :
    readLines "mode sleep\n\napp Slack\nend".toList =
      ["mode sleep".toList, [], "app Slack".toList] ++ [endLine] ∧
    ([] : Str) ∈ ["mode sleep".toList, [], "app Slack".toList] ∧
    SPACE ∉ ([] : Str) ∧
    (UpdateStatus (some "mode sleep\n\napp Slack\nend".toList) sampleState).1.modes = ∅ ∧
    (UpdateStatus (some "mode sleep\n\napp Slack\nend".toList) sampleState).1.tags = ∅ ∧
    (UpdateStatus (some "mode sleep\n\napp Slack\nend".toList) sampleState).1.apps = ∅ ∧
    sizeSub ([] : Str).length 1 = npos :=
  ⟨by decide, by decide, by decide,
    UpdateStatus_bad_separator "mode sleep\n\napp Slack\nend".toList
      ["mode sleep".toList, [], "app Slack".toList] sampleState [] (by decide) (by decide)
      (Or.inl (by decide))⟩

/-- C4: for every status file, if some line before the last one has a text before its
first space that is not exactly `mode`, `tag` or `app`, then `UpdateStatus` leaves modes,
tags and apps all empty, wherever that line sits and whatever the prior state is. -/
theorem UpdateStatus_unknown_type (content : Str) (s : State) (line p r : Str)
    (hmem : line ∈ (readLines content).dropLast)
    (hline : line = p ++ SPACE :: r) (hp : SPACE ∉ p)
    (htype : p ≠ typeMode ∧ p ≠ typeTag ∧ p ≠ typeApp) :
    (UpdateStatus (some content) s).1.modes = ∅ ∧
    (UpdateStatus (some content) s).1.tags = ∅ ∧
    (UpdateStatus (some content) s).1.apps = ∅ := by
  have hbad : ∀ acc, parseLine acc line = none := by
    intro acc
    rw [hline]
    exact parseLine_unknown_type acc p r hp htype.1 htype.2.1 htype.2.2
  have hnone := parseLines_none_of_mem (readLines content).dropLast line hmem hbad ⟨∅, ∅, ∅⟩
  rw [UpdateStatus_of_parse_none content s hnone]
  exact ⟨rfl, rfl, rfl⟩

/-- Witness of C4: the type `Mode`, which differs from `mode` by case only, on the last
line before the terminator. -/
theorem UpdateStatus_unknown_type_witness :
    "Mode sleep".toList ∈ (readLines "tag a\nMode sleep\nend".toList).dropLast ∧
    "Mode sleep".toList = "Mode".toList ++ SPACE :: "sleep".toList ∧
    SPACE ∉ "Mode".toList ∧
    ("Mode".toList ≠ typeMode ∧ "Mode".toList ≠ typeTag ∧ "Mode".toList ≠ typeApp) ∧
    (UpdateStatus (some "tag a\nMode sleep\nend".toList) sampleState).1.modes = ∅ ∧
    (UpdateStatus (some "tag a\nMode sleep\nend".toList) sampleState).1.tags = ∅ ∧
    (UpdateStatus (some "tag a\nMode sleep\nend".toList) sampleState).1.apps = ∅ :=
  ⟨by decide, by decide, by decide, by decide,
    UpdateStatus_unknown_type "tag a\nMode sleep\nend".toList sampleState
      "Mode sleep".toList "Mode".toList "sleep".toList (by decide) (by decide) (by decide)
      (by decide)⟩

/-- C5: the snapshot left by `UpdateStatus` depends on the file alone: for every file and
every prior state, running `UpdateStatus` twice leaves the same snapshot as running it
once, and any two prior states give the same snapshot (the old sets are replaced as a
whole, never merged). -/
theorem UpdateStatus_snapshot_idempotent (file : Option Str) (s s2 : State) :
    (UpdateStatus file (UpdateStatus file s).1).1.snapshot = (UpdateStatus file s).1.snapshot ∧
    (UpdateStatus file s).1.snapshot = (UpdateStatus file s2).1.snapshot :=
  ⟨UpdateStatus_snapshot_indep file _ s, UpdateStatus_snapshot_indep file s s2⟩

/-! ## Key reconciler: the properties -/

theorem UpdateKey_speech (s : State) (context : Str) (keyInfo : KeyInfo)
    (h : keyInfo.action = "com.talon.speech.speechstatus".toList) :
    UpdateKey s context keyInfo = UpdateSpeechStatusKey s context keyInfo := by
  simp only [UpdateKey, h, if_true]

theorem UpdateKey_tag (s : State) (context : Str) (keyInfo : KeyInfo)
    (h : keyInfo.action = "com.talon.speech.tagstatus".toList) :
    UpdateKey s context keyInfo = UpdateTagStatusKey s context keyInfo := by
  have h1 : "com.talon.speech.tagstatus".toList ≠ "com.talon.speech.speechstatus".toList := by
    decide
  simp only [UpdateKey, h, if_neg h1, if_true]

theorem UpdateKey_mode (s : State) (context : Str) (keyInfo : KeyInfo)
    (h : keyInfo.action = "com.talon.speech.modestatus".toList) :
    UpdateKey s context keyInfo = UpdateModeStatusKey s context keyInfo := by
  have h1 : "com.talon.speech.modestatus".toList ≠ "com.talon.speech.speechstatus".toList := by
    decide
  have h2 : "com.talon.speech.modestatus".toList ≠ "com.talon.speech.tagstatus".toList := by
    decide
  simp only [UpdateKey, h, if_neg h1, if_neg h2, if_true]

theorem UpdateKey_app (s : State) (context : Str) (keyInfo : KeyInfo)
    (h : keyInfo.action = "com.talon.speech.appstatus".toList) :
    UpdateKey s context keyInfo = UpdateAppStatusKey s context keyInfo := by
  have h1 : "com.talon.speech.appstatus".toList ≠ "com.talon.speech.speechstatus".toList := by
    decide
  have h2 : "com.talon.speech.appstatus".toList ≠ "com.talon.speech.tagstatus".toList := by
    decide
  have h3 : "com.talon.speech.appstatus".toList ≠ "com.talon.speech.modestatus".toList := by
    decide
  simp only [UpdateKey, h, if_neg h1, if_neg h2, if_neg h3, if_true]

/-- C6: for every state, the calls `UpdateSpeechStatusKey` issues are decided by priority:
`SetState(0)` alone when `command` is in modes (also when `sleep` is), else `SetState(1)`
alone when `sleep` is in modes, else `SetState(1)` followed by `SetTitle("No Status")`
on hardware and software; the tags and apps sets and the key record have no influence, and
this is what `UpdateKeys` runs for a key whose action is the speech-status one. -/
theorem UpdateSpeechStatusKey_priority (s : State) (context : Str) (keyInfo : KeyInfo) :
    UpdateSpeechStatusKey s context keyInfo =
      (if "command".toList ∈ s.modes then [Call.SetState 0 context]
       else if "sleep".toList ∈ s.modes then [Call.SetState 1 context]
       else [Call.SetState 1 context,
             Call.SetTitle "No Status".toList context ESDSDKTarget.HardwareAndSoftware]) ∧
    (∀ (tags apps : Finset Str) (keyInfo2 : KeyInfo),
      UpdateSpeechStatusKey { s with tags := tags, apps := apps } context keyInfo2 =
        UpdateSpeechStatusKey s context keyInfo) ∧
    UpdateKey s context { keyInfo with action := "com.talon.speech.speechstatus".toList } =
      UpdateSpeechStatusKey s context keyInfo := by
  refine ⟨?_, ?_, ?_⟩
  · simp only [UpdateSpeechStatusKey, decide_eq_true_eq]
  · intro tags apps keyInfo2
    rfl
  · rw [UpdateKey_speech _ _ _ rfl]
    rfl

theorem UpdateTagStatusKey_empty (s : State) (context : Str) (keyInfo : KeyInfo)
    (h : keyInfo.monitorValue = []) :
    UpdateTagStatusKey s context keyInfo =
      [Call.SetState 1 context,
       Call.SetTitle "No Tag".toList context ESDSDKTarget.HardwareAndSoftware,
       Call.SetState (if ([] : Str) ∈ s.tags then 0 else 1) context] := by
  simp [UpdateTagStatusKey, h]

theorem UpdateModeStatusKey_empty (s : State) (context : Str) (keyInfo : KeyInfo)
    (h : keyInfo.monitorValue = []) :
    UpdateModeStatusKey s context keyInfo =
      [Call.SetState 1 context,
       Call.SetTitle "No Mode".toList context ESDSDKTarget.HardwareAndSoftware,
       Call.SetState (if ([] : Str) ∈ s.modes then 0 else 1) context] := by
  simp [UpdateModeStatusKey, h]

theorem UpdateAppStatusKey_empty (s : State) (context : Str) (keyInfo : KeyInfo)
    (h : keyInfo.monitorValue = []) :
    UpdateAppStatusKey s context keyInfo =
      [Call.SetState 1 context,
       Call.SetTitle "No App".toList context ESDSDKTarget.HardwareAndSoftware,
       Call.SetState (if ([] : Str) ∈ s.apps then 0 else 1) context] := by
  simp [UpdateAppStatusKey, h]

theorem slackContent_parse :
    readLines slackContent = ["mode sleep".toList, "app Slack".toList] ++ [endLine] ∧
    parseLines ["mode sleep".toList, "app Slack".toList] ⟨∅, ∅, ∅⟩ =
      some ⟨{"sleep".toList}, ∅, {"Slack".toList}⟩ := by
  decide

theorem UpdateStatus_slackContent (s : State) :
    UpdateStatus (some slackContent) s =
      ({ s with modes := {"sleep".toList}, tags := ∅, apps := {"Slack".toList} },
        UpdateKeys { s with modes := {"sleep".toList}, tags := ∅, apps := {"Slack".toList} }) := by
  rw [UpdateStatus_of_lines slackContent _ s slackContent_parse.1, slackContent_parse.2]

/-- C8, as stated, fails: against the snapshot read from `mode sleep\napp Slack\nend`, the
calls for a tag-status key watching `anything` are `SetState(1)` alone; no `SetTitle`
with the label `No Tag` is issued for it. -/
theorem slackExample_noTitle_counterexample :
    UpdateKey (UpdateStatus (some slackContent) sampleState).1 "ctxB".toList
        { action := "com.talon.speech.tagstatus".toList, monitorValue := "anything".toList } =
      [Call.SetState 1 "ctxB".toList] ∧
    Call.SetTitle "No Tag".toList "ctxB".toList ESDSDKTarget.HardwareAndSoftware ∉
      UpdateKey (UpdateStatus (some slackContent) sampleState).1 "ctxB".toList
        { action := "com.talon.speech.tagstatus".toList, monitorValue := "anything".toList } := by
  decide

/-- C8, amended: for the content `mode sleep\napp Slack\nend` and every prior state,
`UpdateStatus` stores modes = {`sleep`}, tags = {}, apps = {`Slack`}; against that state
the calls for a mode-status key watching `sleep` are exactly `SetState(0)`, and the calls
for a tag-status key watching `anything` are exactly `SetState(1)`, with no `SetTitle`. -/
theorem slackExample (s : State) (context : Str) :
    (UpdateStatus (some slackContent) s).1.modes = {"sleep".toList} ∧
    (UpdateStatus (some slackContent) s).1.tags = ∅ ∧
    (UpdateStatus (some slackContent) s).1.apps = {"Slack".toList} ∧
    UpdateKey (UpdateStatus (some slackContent) s).1 context
        { action := "com.talon.speech.modestatus".toList, monitorValue := "sleep".toList } =
      [Call.SetState 0 context] ∧
    UpdateKey (UpdateStatus (some slackContent) s).1 context
        { action := "com.talon.speech.tagstatus".toList, monitorValue := "anything".toList } =
      [Call.SetState 1 context] := by
  rw [UpdateStatus_slackContent s]
  refine ⟨rfl, rfl, rfl, ?_, ?_⟩
  · rw [UpdateKey_mode _ _ _ rfl]
    simp [UpdateModeStatusKey, List.isEmpty]
  · rw [UpdateKey_tag _ _ _ rfl]
    simp [UpdateTagStatusKey, List.isEmpty]

theorem UpdateTagStatusKey_nonempty (s : State) (context : Str) (keyInfo : KeyInfo)
    (h : keyInfo.monitorValue ≠ []) :
    UpdateTagStatusKey s context keyInfo =
      [Call.SetState (if keyInfo.monitorValue ∈ s.tags then 0 else 1) context] := by
  simp [UpdateTagStatusKey, h]

theorem UpdateModeStatusKey_nonempty (s : State) (context : Str) (keyInfo : KeyInfo)
    (h : keyInfo.monitorValue ≠ []) :
    UpdateModeStatusKey s context keyInfo =
      [Call.SetState (if keyInfo.monitorValue ∈ s.modes then 0 else 1) context] := by
  simp [UpdateModeStatusKey, h]

theorem UpdateAppStatusKey_nonempty (s : State) (context : Str) (keyInfo : KeyInfo)
    (h : keyInfo.monitorValue ≠ []) :
    UpdateAppStatusKey s context keyInfo =
      [Call.SetState (if keyInfo.monitorValue ∈ s.apps then 0 else 1) context] := by
  simp [UpdateAppStatusKey, h]

/-- C9: for every state and every tag-status, mode-status or app-status key with a
non-empty `monitorValue`, the calls of `UpdateKeys` for that key are exactly one
`SetState(s)`, with `s = 0` when `monitorValue` is a member of the set of the key's own
kind (tags, modes, apps) and `s = 1` otherwise; there is no `SetTitle`, and the other two
sets do not enter the result. -/
theorem nonemptyWatch_single_SetState (s : State) (context : Str) (keyInfo : KeyInfo)
    (hne : keyInfo.monitorValue ≠ []) :
    (keyInfo.action = "com.talon.speech.tagstatus".toList →
      UpdateKey s context keyInfo =
        [Call.SetState (if keyInfo.monitorValue ∈ s.tags then 0 else 1) context]) ∧
    (keyInfo.action = "com.talon.speech.modestatus".toList →
      UpdateKey s context keyInfo =
        [Call.SetState (if keyInfo.monitorValue ∈ s.modes then 0 else 1) context]) ∧
    (keyInfo.action = "com.talon.speech.appstatus".toList →
      UpdateKey s context keyInfo =
        [Call.SetState (if keyInfo.monitorValue ∈ s.apps then 0 else 1) context]) := by
  refine ⟨?_, ?_, ?_⟩
  · intro ha
    rw [UpdateKey_tag s context keyInfo ha, UpdateTagStatusKey_nonempty s context keyInfo hne]
  · intro ha
    rw [UpdateKey_mode s context keyInfo ha, UpdateModeStatusKey_nonempty s context keyInfo hne]
  · intro ha
    rw [UpdateKey_app s context keyInfo ha, UpdateAppStatusKey_nonempty s context keyInfo hne]

/-- Witness of C9: an app-status key watching `Finder` against `sampleState`, whose apps
set holds `Finder`, and a mode-status key watching `Finder`, which is in no modes set. -/
theorem nonemptyWatch_single_SetState_witness :
    "Finder".toList ≠ [] ∧
    UpdateKey sampleState "ctx".toList
        { action := "com.talon.speech.appstatus".toList, monitorValue := "Finder".toList } =
      [Call.SetState 0 "ctx".toList] ∧
    UpdateKey sampleState "ctx".toList
        { action := "com.talon.speech.modestatus".toList, monitorValue := "Finder".toList } =
      [Call.SetState 1 "ctx".toList] :=
  ⟨by decide,
    (nonemptyWatch_single_SetState sampleState "ctx".toList
      { action := "com.talon.speech.appstatus".toList, monitorValue := "Finder".toList }
      (by decide)).2.2 rfl,
    (nonemptyWatch_single_SetState sampleState "ctx".toList
      { action := "com.talon.speech.modestatus".toList, monitorValue := "Finder".toList }
      (by decide)).2.1 rfl⟩

theorem UpdateKey_context (s : State) (context : Str) (keyInfo : KeyInfo) :
    ∀ call ∈ UpdateKey s context keyInfo, call.context = context := by
  intro call hc
  unfold UpdateKey at hc
  split_ifs at hc
  · unfold UpdateSpeechStatusKey at hc
    simp only [decide_eq_true_eq] at hc
    split_ifs at hc <;> simp at hc <;> rcases hc with rfl | rfl <;> rfl
  · unfold UpdateTagStatusKey at hc
    split_ifs at hc <;> simp at hc <;> rcases hc with rfl | rfl | rfl <;> rfl
  · unfold UpdateModeStatusKey at hc
    split_ifs at hc <;> simp at hc <;> rcases hc with rfl | rfl | rfl <;> rfl
  · unfold UpdateAppStatusKey at hc
    split_ifs at hc <;> simp at hc <;> rcases hc with rfl | rfl | rfl <;> rfl
  · simp at hc
    rw [hc]
    rfl

theorem UpdateKey_ne_nil (s : State) (context : Str) (keyInfo : KeyInfo) :
    UpdateKey s context keyInfo ≠ [] := by
  unfold UpdateKey
  split_ifs
  · unfold UpdateSpeechStatusKey
    simp only [decide_eq_true_eq]
    split_ifs <;> simp
  · simp [UpdateTagStatusKey]
  · simp [UpdateModeStatusKey]
  · simp [UpdateAppStatusKey]
  · simp

theorem UpdateKeys_connected (s : State) (h : s.connected = true) :
    UpdateKeys s = s.keysByContext.flatMap (fun entry => UpdateKey s entry.1 entry.2) := by
  unfold UpdateKeys
  cases hk : s.keysByContext with
  | nil => simp
  | cons e rest => simp [h]

/-- C10: when a connection is present and the file parses (its lines are `body` followed
by `end`, and the parsing loop completes on `body` with the sets `out`), `UpdateStatus`
replaces the three sets by `out`, leaves the button table as it is, and issues exactly the
concatenation, over the entries of the table in order, of the calls of the per-kind
reconciliation of that entry against the new sets; hence every entry of the table receives
a call and every call is addressed to an entry of the table. -/
theorem UpdateStatus_reconciles (content : Str) (body : List Str) (s : State) (out : Snapshot)
    (hlines : readLines content = body ++ [endLine])
    (hparse : parseLines body ⟨∅, ∅, ∅⟩ = some out)
    (hconn : s.connected = true) :
    UpdateStatus (some content) s =
      ({ s with modes := out.modes, tags := out.tags, apps := out.apps },
        s.keysByContext.flatMap (fun entry =>
          UpdateKey { s with modes := out.modes, tags := out.tags, apps := out.apps }
            entry.1 entry.2)) ∧
    (∀ entry ∈ s.keysByContext,
      ∃ call ∈ (UpdateStatus (some content) s).2, call.context = entry.1) ∧
    (∀ call ∈ (UpdateStatus (some content) s).2,
      ∃ entry ∈ s.keysByContext, call.context = entry.1) := by
  have hu : UpdateStatus (some content) s =
      ({ s with modes := out.modes, tags := out.tags, apps := out.apps },
        s.keysByContext.flatMap (fun entry =>
          UpdateKey { s with modes := out.modes, tags := out.tags, apps := out.apps }
            entry.1 entry.2)) := by
    rw [UpdateStatus_of_lines content body s hlines, hparse]
    simp only
    rw [UpdateKeys_connected
      { s with modes := out.modes, tags := out.tags, apps := out.apps } hconn]
  refine ⟨hu, ?_, ?_⟩
  · intro entry he
    rw [hu]
    obtain ⟨call, hcall⟩ := List.exists_mem_of_ne_nil _
      (UpdateKey_ne_nil { s with modes := out.modes, tags := out.tags, apps := out.apps }
        entry.1 entry.2)
    exact ⟨call, List.mem_flatMap.mpr ⟨entry, he, hcall⟩, UpdateKey_context _ _ _ call hcall⟩
  · intro call hc
    rw [hu] at hc
    obtain ⟨entry, he, hcall⟩ := List.mem_flatMap.mp hc
    exact ⟨entry, he, UpdateKey_context _ _ _ call hcall⟩

/-- Witness of C10 on `sampleContent` and `sampleState`: the three visible keys receive,
in table order, the states computed from the new sets. -/
theorem UpdateStatus_reconciles_witness :
    readLines sampleContent = sampleBody ++ [endLine] ∧
    parseLines sampleBody ⟨∅, ∅, ∅⟩ =
      some ⟨{"sleep".toList}, {"user my tag".toList}, {"Slack".toList}⟩ ∧
    sampleState.connected = true ∧
    (UpdateStatus (some sampleContent) sampleState).2 =
      [Call.SetState 0 "ctxA".toList, Call.SetState 1 "ctxB".toList,
       Call.SetState 1 "ctxC".toList] :=
  ⟨by decide, by decide, rfl,
    (congrArg Prod.snd
      (UpdateStatus_reconciles sampleContent sampleBody sampleState
        ⟨{"sleep".toList}, {"user my tag".toList}, {"Slack".toList}⟩
        (by decide) (by decide) rfl).1).trans (by decide)⟩

/-! ## Event handlers: the properties -/

/-- C11, as stated, fails: with the status file holding `mode sleep\napp Slack\nend` and
the stored modes being {`dictation`}, the snapshot after `WillAppearForAction` and after
`WillDisappearForAction` is still the stored one, not the one `UpdateStatus` reads from the
file, and the mode-status key `ctxA` watching `sleep` is sent state 1 although the file
lists the mode `sleep`. -/
theorem visibility_no_reload_counterexample :
    (WillAppearForAction "com.talon.speech.tagstatus".toList "ctxD".toList samplePayload
        "dev".toList sampleState).1.snapshot ≠
      (UpdateStatus (some slackContent) sampleState).1.snapshot ∧
    (WillDisappearForAction "ctxB".toList sampleState).1.snapshot ≠
      (UpdateStatus (some slackContent) sampleState).1.snapshot ∧
    Call.SetState 1 "ctxA".toList ∈ (WillDisappearForAction "ctxB".toList sampleState).2 ∧
    Call.SetState 0 "ctxA".toList ∈ (UpdateStatus (some slackContent) sampleState).2 := by
  decide

theorem UpdateKey_cleared (s : State) (context : Str) (keyInfo : KeyInfo)
    (hm : s.modes = ∅) (ht : s.tags = ∅) (ha : s.apps = ∅) :
    (keyInfo.action = "com.talon.speech.speechstatus".toList →
      UpdateKey s context keyInfo =
        [Call.SetState 1 context,
         Call.SetTitle "No Status".toList context ESDSDKTarget.HardwareAndSoftware]) ∧
    (keyInfo.action = "com.talon.speech.tagstatus".toList →
      UpdateKey s context keyInfo =
        (if keyInfo.monitorValue = [] then
          [Call.SetState 1 context,
           Call.SetTitle "No Tag".toList context ESDSDKTarget.HardwareAndSoftware,
           Call.SetState 1 context]
         else [Call.SetState 1 context])) ∧
    (keyInfo.action = "com.talon.speech.modestatus".toList →
      UpdateKey s context keyInfo =
        (if keyInfo.monitorValue = [] then
          [Call.SetState 1 context,
           Call.SetTitle "No Mode".toList context ESDSDKTarget.HardwareAndSoftware,
           Call.SetState 1 context]
         else [Call.SetState 1 context])) ∧
    (keyInfo.action = "com.talon.speech.appstatus".toList →
      UpdateKey s context keyInfo =
        (if keyInfo.monitorValue = [] then
          [Call.SetState 1 context,
           Call.SetTitle "No App".toList context ESDSDKTarget.HardwareAndSoftware,
           Call.SetState 1 context]
         else [Call.SetState 1 context])) := by
  refine ⟨?_, ?_, ?_, ?_⟩
  · intro h
    rw [UpdateKey_speech s context keyInfo h]
    simp [UpdateSpeechStatusKey, hm]
  · intro h
    rw [UpdateKey_tag s context keyInfo h]
    by_cases he : keyInfo.monitorValue = []
    · rw [UpdateTagStatusKey_empty s context keyInfo he, if_pos he, ht]
      simp
    · rw [UpdateTagStatusKey_nonempty s context keyInfo he, if_neg he, ht]
      simp
  · intro h
    rw [UpdateKey_mode s context keyInfo h]
    by_cases he : keyInfo.monitorValue = []
    · rw [UpdateModeStatusKey_empty s context keyInfo he, if_pos he, hm]
      simp
    · rw [UpdateModeStatusKey_nonempty s context keyInfo he, if_neg he, hm]
      simp
  · intro h
    rw [UpdateKey_app s context keyInfo h]
    by_cases he : keyInfo.monitorValue = []
    · rw [UpdateAppStatusKey_empty s context keyInfo he, if_pos he, ha]
      simp
    · rw [UpdateAppStatusKey_nonempty s context keyInfo he, if_neg he, ha]
      simp

/-- C12: against the cleared snapshot (all three sets empty), for a key of any of the four
known kinds and every `monitorValue`, the calls of the reconciliation include a `SetState`
for the key, every `SetState` issued has state 1 (none sets state 0), and the display
state the key is left in is 1 (Inactive). -/
theorem cleared_inactive (s : State) (context : Str) (keyInfo : KeyInfo)
    (hm : s.modes = ∅) (ht : s.tags = ∅) (ha : s.apps = ∅)
    (hkind : keyInfo.action = "com.talon.speech.speechstatus".toList ∨
      keyInfo.action = "com.talon.speech.tagstatus".toList ∨
      keyInfo.action = "com.talon.speech.modestatus".toList ∨
      keyInfo.action = "com.talon.speech.appstatus".toList) :
    Call.SetState 1 context ∈ UpdateKey s context keyInfo ∧
    (∀ state ctx, Call.SetState state ctx ∈ UpdateKey s context keyInfo → state = 1) ∧
    Call.SetState 0 context ∉ UpdateKey s context keyInfo ∧
    displayState context (UpdateKey s context keyInfo) = some 1 := by
  obtain ⟨h1, h2, h3, h4⟩ := UpdateKey_cleared s context keyInfo hm ht ha
  have hcases : ∃ title,
      UpdateKey s context keyInfo =
        [Call.SetState 1 context,
         Call.SetTitle title context ESDSDKTarget.HardwareAndSoftware] ∨
      UpdateKey s context keyInfo =
        [Call.SetState 1 context,
         Call.SetTitle title context ESDSDKTarget.HardwareAndSoftware,
         Call.SetState 1 context] ∨
      UpdateKey s context keyInfo = [Call.SetState 1 context] := by
    rcases hkind with h | h | h | h
    · exact ⟨_, Or.inl (h1 h)⟩
    · by_cases he : keyInfo.monitorValue = []
      · exact ⟨_, Or.inr (Or.inl (by rw [h2 h, if_pos he]))⟩
      · exact ⟨[], Or.inr (Or.inr (by rw [h2 h, if_neg he]))⟩
    · by_cases he : keyInfo.monitorValue = []
      · exact ⟨_, Or.inr (Or.inl (by rw [h3 h, if_pos he]))⟩
      · exact ⟨[], Or.inr (Or.inr (by rw [h3 h, if_neg he]))⟩
    · by_cases he : keyInfo.monitorValue = []
      · exact ⟨_, Or.inr (Or.inl (by rw [h4 h, if_pos he]))⟩
      · exact ⟨[], Or.inr (Or.inr (by rw [h4 h, if_neg he]))⟩
  obtain ⟨title, hc | hc | hc⟩ := hcases <;> rw [hc] <;>
    refine ⟨by simp, ?_, by simp, by simp [displayState]⟩ <;>
    intro state ctx hmem <;> simp at hmem <;> omega

/-- Witness of C12: a tag-status key with an empty `monitorValue` against the cleared
`sampleState`. -/
theorem cleared_inactive_witness :
    (ClearStatus sampleState).modes = ∅ ∧ (ClearStatus sampleState).tags = ∅ ∧
    (ClearStatus sampleState).apps = ∅ ∧
    displayState "ctx".toList
      (UpdateKey (ClearStatus sampleState) "ctx".toList
        { action := "com.talon.speech.tagstatus".toList, monitorValue := [] }) = some 1 :=
  ⟨rfl, rfl, rfl,
    (cleared_inactive (ClearStatus sampleState) "ctx".toList
      { action := "com.talon.speech.tagstatus".toList, monitorValue := [] } rfl rfl rfl
      (Or.inr (Or.inl rfl))).2.2.2⟩

/-- C16: for a key whose action is none of the speech-status, tag-status, mode-status and
app-status ones, the loop body of `UpdateKeys` issues exactly one call,
`SetTitle("Unk Action")` on hardware and software, and so no `SetState`, for every state
and every `monitorValue`. -/
theorem unknownAction_title_only (s : State) (context : Str) (keyInfo : KeyInfo)
    (h1 : keyInfo.action ≠ "com.talon.speech.speechstatus".toList)
    (h2 : keyInfo.action ≠ "com.talon.speech.tagstatus".toList)
    (h3 : keyInfo.action ≠ "com.talon.speech.modestatus".toList)
    (h4 : keyInfo.action ≠ "com.talon.speech.appstatus".toList) :
    UpdateKey s context keyInfo =
      [Call.SetTitle "Unk Action".toList context ESDSDKTarget.HardwareAndSoftware] ∧
    (∀ state ctx, Call.SetState state ctx ∉ UpdateKey s context keyInfo) := by
  have hu : UpdateKey s context keyInfo =
      [Call.SetTitle "Unk Action".toList context ESDSDKTarget.HardwareAndSoftware] := by
    simp only [UpdateKey, if_neg h1, if_neg h2, if_neg h3, if_neg h4]
  refine ⟨hu, ?_⟩
  intro state ctx hmem
  rw [hu] at hmem
  simp at hmem

/-- Witness of C16: a key whose action differs from the speech-status one by case only,
in a table of one entry, against `sampleState`. -/
theorem unknownAction_title_only_witness :
    "com.talon.speech.SpeechStatus".toList ≠ "com.talon.speech.speechstatus".toList ∧
    UpdateKeys { sampleState with
        keysByContext :=
          [("ctx".toList, { action := "com.talon.speech.SpeechStatus".toList,
                            monitorValue := "sleep".toList })] } =
      [Call.SetTitle "Unk Action".toList "ctx".toList ESDSDKTarget.HardwareAndSoftware] :=
  ⟨by decide,
    (show UpdateKeys { sampleState with
        keysByContext :=
          [("ctx".toList, { action := "com.talon.speech.SpeechStatus".toList,
                            monitorValue := "sleep".toList })] } =
        UpdateKey sampleState "ctx".toList
          { action := "com.talon.speech.SpeechStatus".toList,
            monitorValue := "sleep".toList } by decide).trans
      (unknownAction_title_only sampleState "ctx".toList
        { action := "com.talon.speech.SpeechStatus".toList, monitorValue := "sleep".toList }
        (by decide) (by decide) (by decide) (by decide)).1⟩

/-- C17: for a tag-status, mode-status or app-status key with an empty `monitorValue`,
the reconciliation does not stop after the fallback: it issues exactly three calls, in
this order: `SetState(1)`, `SetTitle` of the fallback label, and a second `SetState`
whose state is 0 if the empty string is a member of the set of the key's kind and 1
otherwise. -/
theorem emptyWatch_three_calls (s : State) (context : Str) (keyInfo : KeyInfo)
    (hempty : keyInfo.monitorValue = []) :
    (keyInfo.action = "com.talon.speech.tagstatus".toList →
      UpdateKey s context keyInfo =
        [Call.SetState 1 context,
         Call.SetTitle "No Tag".toList context ESDSDKTarget.HardwareAndSoftware,
         Call.SetState (if ([] : Str) ∈ s.tags then 0 else 1) context]) ∧
    (keyInfo.action = "com.talon.speech.modestatus".toList →
      UpdateKey s context keyInfo =
        [Call.SetState 1 context,
         Call.SetTitle "No Mode".toList context ESDSDKTarget.HardwareAndSoftware,
         Call.SetState (if ([] : Str) ∈ s.modes then 0 else 1) context]) ∧
    (keyInfo.action = "com.talon.speech.appstatus".toList →
      UpdateKey s context keyInfo =
        [Call.SetState 1 context,
         Call.SetTitle "No App".toList context ESDSDKTarget.HardwareAndSoftware,
         Call.SetState (if ([] : Str) ∈ s.apps then 0 else 1) context]) := by
  refine ⟨?_, ?_, ?_⟩
  · intro h
    rw [UpdateKey_tag s context keyInfo h, UpdateTagStatusKey_empty s context keyInfo hempty]
  · intro h
    rw [UpdateKey_mode s context keyInfo h, UpdateModeStatusKey_empty s context keyInfo hempty]
  · intro h
    rw [UpdateKey_app s context keyInfo h, UpdateAppStatusKey_empty s context keyInfo hempty]

/-- Witness of C17: a mode-status key with an empty `monitorValue`, against `sampleState`
(second state 1) and against a state whose modes hold the empty string (second state 0). -/
theorem emptyWatch_three_calls_witness :
    UpdateKey sampleState "ctx".toList
        { action := "com.talon.speech.modestatus".toList, monitorValue := [] } =
      [Call.SetState 1 "ctx".toList,
       Call.SetTitle "No Mode".toList "ctx".toList ESDSDKTarget.HardwareAndSoftware,
       Call.SetState 1 "ctx".toList] ∧
    UpdateKey emptyMemberState "ctx".toList
        { action := "com.talon.speech.modestatus".toList, monitorValue := [] } =
      [Call.SetState 1 "ctx".toList,
       Call.SetTitle "No Mode".toList "ctx".toList ESDSDKTarget.HardwareAndSoftware,
       Call.SetState 0 "ctx".toList] :=
  ⟨(emptyWatch_three_calls sampleState "ctx".toList
      { action := "com.talon.speech.modestatus".toList, monitorValue := [] } rfl).2.1 rfl,
    (emptyWatch_three_calls emptyMemberState "ctx".toList
      { action := "com.talon.speech.modestatus".toList, monitorValue := [] } rfl).2.1 rfl⟩

theorem mapFind_cons (context : Str) (entry : Str × KeyInfo) (rest : List (Str × KeyInfo)) :
    mapFind context (entry :: rest) =
      if entry.1 = context then some entry.2 else mapFind context rest := by
  unfold mapFind
  rw [List.find?_cons]
  by_cases h : entry.1 = context
  · rw [if_pos h, decide_eq_true h]
    rfl
  · rw [if_neg h, decide_eq_false h]

theorem mapFind_of_not_mem (context : Str) (table : List (Str × KeyInfo))
    (h : context ∉ table.map Prod.fst) : mapFind context table = none := by
  induction table with
  | nil => rfl
  | cons entry rest ih =>
    rw [List.map_cons, List.mem_cons, not_or] at h
    rw [mapFind_cons, if_neg (fun e => h.1 e.symm)]
    exact ih h.2

theorem mapFind_of_mem (context : Str) (keyInfo : KeyInfo) (table : List (Str × KeyInfo))
    (hmem : (context, keyInfo) ∈ table) (hnd : (table.map Prod.fst).Nodup) :
    mapFind context table = some keyInfo := by
  induction table with
  | nil => exact absurd hmem (List.not_mem_nil _)
  | cons entry rest ih =>
    rw [List.map_cons, List.nodup_cons] at hnd
    rw [mapFind_cons]
    rcases List.mem_cons.mp hmem with e | hin
    · rw [← e, if_pos rfl]
    · have hne : entry.1 ≠ context := by
        intro e
        apply hnd.1
        rw [e]
        exact List.mem_map.mpr ⟨(context, keyInfo), hin, rfl⟩
      rw [if_neg hne]
      exact ih hin hnd.2

theorem EndsWith_iff_suffix (haystack needle : Str) :
    EndsWith haystack needle = true ↔ needle <:+ haystack := by
  unfold EndsWith
  by_cases hlt : haystack.length < needle.length
  · rw [if_pos hlt]
    constructor
    · intro h
      exact absurd h (by simp)
    · intro h
      exact absurd h.length_le (by omega)
  · rw [if_neg hlt, decide_eq_true_iff]
    have hlen : (haystack.drop (haystack.length - needle.length)).length = needle.length := by
      rw [List.length_drop]
      omega
    have htake : substr haystack (haystack.length - needle.length) needle.length =
        haystack.drop (haystack.length - needle.length) := by
      unfold substr
      exact List.take_of_length_le (le_of_eq hlen)
    rw [htake, List.suffix_iff_eq_drop]
    exact eq_comm

/-- C14: `EndsWith(haystack, needle)` is true exactly when `needle` is a suffix of
`haystack` (so it is false when `needle` is longer), and `FileSystemEventsCallback` runs
`UpdateStatus` exactly when one of the changed paths ends with `/talon-status`, doing
nothing otherwise; a path that only contains the name, such as `/tmp/talon-status.bak` or
`/tmp/my-talon-status`, does not count. -/
theorem FileSystemEventsCallback_suffix (paths : List Str) (file : Option Str) (s : State) :
    (∀ haystack needle : Str, EndsWith haystack needle = true ↔ needle <:+ haystack) ∧
    (∀ haystack needle : Str, haystack.length < needle.length →
      EndsWith haystack needle = false) ∧
    ((∃ path ∈ paths, "/talon-status".toList <:+ path) →
      FileSystemEventsCallback paths file s = UpdateStatus file s) ∧
    ((¬ ∃ path ∈ paths, "/talon-status".toList <:+ path) →
      FileSystemEventsCallback paths file s = (s, [])) ∧
    EndsWith "/tmp/talon-status.bak".toList "/talon-status".toList = false ∧
    EndsWith "/tmp/my-talon-status".toList "/talon-status".toList = false ∧
    EndsWith "/tmp/talon-status".toList "/talon-status".toList = true := by
  have hsuffix : "/".toList ++ StatusFileName = "/talon-status".toList := by decide
  have hany : (paths.any fun path => EndsWith path ("/".toList ++ StatusFileName)) = true ↔
      ∃ path ∈ paths, "/talon-status".toList <:+ path := by
    rw [List.any_eq_true, hsuffix]
    constructor
    · rintro ⟨path, hp, he⟩
      exact ⟨path, hp, (EndsWith_iff_suffix _ _).mp he⟩
    · rintro ⟨path, hp, he⟩
      exact ⟨path, hp, (EndsWith_iff_suffix _ _).mpr he⟩
  refine ⟨EndsWith_iff_suffix, ?_, ?_, ?_, by decide, by decide, by decide⟩
  · intro haystack needle hlt
    unfold EndsWith
    rw [if_pos hlt]
  · intro h
    unfold FileSystemEventsCallback
    simp only
    rw [if_neg (not_not.mpr (hany.mpr h))]
  · intro h
    unfold FileSystemEventsCallback
    simp only
    rw [if_pos (fun hf => h (hany.mp hf))]

/-- Witness of C14: among two changed paths the second is the status file, so the callback
reloads; with only a backup file and a longer name changed it does nothing. -/
theorem FileSystemEventsCallback_suffix_witness :
    (∃ path ∈ ["/tmp/other".toList, "/tmp/talon-status".toList],
      "/talon-status".toList <:+ path) ∧
    FileSystemEventsCallback ["/tmp/other".toList, "/tmp/talon-status".toList]
        (some slackContent) sampleState = UpdateStatus (some slackContent) sampleState ∧
    (¬ ∃ path ∈ ["/tmp/talon-status.bak".toList, "/tmp/my-talon-status".toList],
      "/talon-status".toList <:+ path) ∧
    FileSystemEventsCallback ["/tmp/talon-status.bak".toList, "/tmp/my-talon-status".toList]
        (some slackContent) sampleState = (sampleState, []) :=
  ⟨by decide,
    (FileSystemEventsCallback_suffix ["/tmp/other".toList, "/tmp/talon-status".toList]
      (some slackContent) sampleState).2.2.1 (by decide),
    by decide,
    (FileSystemEventsCallback_suffix
      ["/tmp/talon-status.bak".toList, "/tmp/my-talon-status".toList]
      (some slackContent) sampleState).2.2.2.1 (by decide)⟩

/-! ## Runs of the plugin: the properties -/

theorem sizeSub_one_lt (n : Nat) (h : 0 < n) : sizeSub n 1 < n := by
  obtain ⟨m, rfl⟩ : ∃ m, n = m + 1 := ⟨n - 1, by omega⟩
  have := sizeSub_succ_one_le m
  omega

theorem parseLine_value_ne_nil (acc out : Snapshot) (line : Str)
    (h : parseLine acc line = some out)
    (hm : ([] : Str) ∉ acc.modes) (ht : ([] : Str) ∉ acc.tags) (ha : ([] : Str) ∉ acc.apps) :
    ([] : Str) ∉ out.modes ∧ ([] : Str) ∉ out.tags ∧ ([] : Str) ∉ out.apps := by
  unfold parseLine at h
  simp only at h
  split_ifs at h with hbad h1 h2 h3
  all_goals
    have hlt : find line SPACE < sizeSub line.length 1 := by
      by_contra hc
      exact hbad (Or.inr (Or.inl (not_lt.mp hc)))
    have hpos : 0 < line.length := by
      rcases Nat.eq_zero_or_pos line.length with h0 | h0
      · exfalso
        apply hbad
        have : line = [] := List.length_eq_zero.mp h0
        subst this
        exact Or.inr (Or.inr rfl)
      · exact h0
    have hval : substrFrom line (find line SPACE + 1) ≠ [] := by
      have h3 := sizeSub_one_lt line.length hpos
      intro he
      have hl : (substrFrom line (find line SPACE + 1)).length = 0 := by rw [he]; rfl
      unfold substrFrom at hl
      rw [List.length_drop] at hl
      omega
    have hout := (Option.some.inj h).symm
    subst hout
  · exact ⟨by simp only [Finset.mem_insert, not_or]; exact ⟨fun e => hval e.symm, hm⟩, ht, ha⟩
  · exact ⟨hm, by simp only [Finset.mem_insert, not_or]; exact ⟨fun e => hval e.symm, ht⟩, ha⟩
  · exact ⟨hm, ht, by simp only [Finset.mem_insert, not_or]; exact ⟨fun e => hval e.symm, ha⟩⟩

theorem parseLines_value_ne_nil (body : List Str) (acc out : Snapshot)
    (h : parseLines body acc = some out)
    (hm : ([] : Str) ∉ acc.modes) (ht : ([] : Str) ∉ acc.tags) (ha : ([] : Str) ∉ acc.apps) :
    ([] : Str) ∉ out.modes ∧ ([] : Str) ∉ out.tags ∧ ([] : Str) ∉ out.apps := by
  induction body generalizing acc with
  | nil =>
    have := (Option.some.inj h).symm
    subst this
    exact ⟨hm, ht, ha⟩
  | cons line rest ih =>
    unfold parseLines at h
    cases hl : parseLine acc line with
    | none =>
      rw [hl] at h
      exact Option.noConfusion h
    | some acc1 =>
      rw [hl] at h
      obtain ⟨h1, h2, h3⟩ := parseLine_value_ne_nil acc acc1 line hl hm ht ha
      exact ih acc1 h h1 h2 h3

theorem UpdateStatus_value_ne_nil (file : Option Str) (s : State) :
    ([] : Str) ∉ (UpdateStatus file s).1.modes ∧ ([] : Str) ∉ (UpdateStatus file s).1.tags ∧
    ([] : Str) ∉ (UpdateStatus file s).1.apps := by
  have hclear : ([] : Str) ∉ (ClearStatus s).modes ∧ ([] : Str) ∉ (ClearStatus s).tags ∧
      ([] : Str) ∉ (ClearStatus s).apps :=
    ⟨Finset.not_mem_empty _, Finset.not_mem_empty _, Finset.not_mem_empty _⟩
  unfold UpdateStatus
  cases file with
  | none => exact hclear
  | some content =>
    simp only
    split_ifs
    · exact hclear
    · exact hclear
    · cases hp : parseLines (readLines content).dropLast ⟨∅, ∅, ∅⟩ with
      | none => exact hclear
      | some parsed =>
        exact parseLines_value_ne_nil _ _ parsed hp (Finset.not_mem_empty _)
          (Finset.not_mem_empty _) (Finset.not_mem_empty _)

theorem KeyUpForAction_state (repl : ReplOutcome) (inContext : Str) (s : State) :
    (KeyUpForAction repl inContext s).1 = s := by
  unfold KeyUpForAction
  cases mapFind inContext s.keysByContext with
  | none => rfl
  | some keyInfo =>
    simp only
    split_ifs <;> rfl

theorem Event.apply_value_ne_nil (event : Event) (s : State)
    (h : ([] : Str) ∉ s.modes ∧ ([] : Str) ∉ s.tags ∧ ([] : Str) ∉ s.apps) :
    ([] : Str) ∉ (event.apply s).modes ∧ ([] : Str) ∉ (event.apply s).tags ∧
    ([] : Str) ∉ (event.apply s).apps := by
  cases event with
  | updateStatus file => exact UpdateStatus_value_ne_nil file s
  | clearStatus =>
    exact ⟨Finset.not_mem_empty _, Finset.not_mem_empty _, Finset.not_mem_empty _⟩
  | willAppear inAction inContext inPayload inDeviceID => exact h
  | willDisappear inContext => exact h
  | keyUp repl inContext =>
    have hs : (Event.keyUp repl inContext).apply s = s :=
      KeyUpForAction_state repl inContext s
    rw [hs]
    exact h

theorem runEvents_value_ne_nil (events : List Event) (s : State)
    (h : ([] : Str) ∉ s.modes ∧ ([] : Str) ∉ s.tags ∧ ([] : Str) ∉ s.apps) :
    ([] : Str) ∉ (runEvents events s).modes ∧ ([] : Str) ∉ (runEvents events s).tags ∧
    ([] : Str) ∉ (runEvents events s).apps := by
  induction events generalizing s with
  | nil => exact h
  | cons event rest ih => exact ih (event.apply s) (Event.apply_value_ne_nil event s h)

/-- C18: in every state reached from the initial state (empty sets, empty table) by any
sequence of `UpdateStatus` (on any file content, or a file that cannot be opened),
`ClearStatus`, `WillAppearForAction`, `WillDisappearForAction` and `KeyUpForAction`, none
of the sets modes, tags, apps holds the empty string; hence in such a state the calls for
a tag-status, mode-status or app-status key with an empty `monitorValue` end with
`SetState(1)`. -/
theorem reachable_no_empty_value (events : List Event) (connected : Bool) (context : Str)
    (keyInfo : KeyInfo) :
    (([] : Str) ∉ (runEvents events (initialState connected)).modes ∧
      ([] : Str) ∉ (runEvents events (initialState connected)).tags ∧
      ([] : Str) ∉ (runEvents events (initialState connected)).apps) ∧
    (keyInfo.monitorValue = [] →
      (keyInfo.action = "com.talon.speech.tagstatus".toList →
        UpdateKey (runEvents events (initialState connected)) context keyInfo =
          [Call.SetState 1 context,
           Call.SetTitle "No Tag".toList context ESDSDKTarget.HardwareAndSoftware,
           Call.SetState 1 context]) ∧
      (keyInfo.action = "com.talon.speech.modestatus".toList →
        UpdateKey (runEvents events (initialState connected)) context keyInfo =
          [Call.SetState 1 context,
           Call.SetTitle "No Mode".toList context ESDSDKTarget.HardwareAndSoftware,
           Call.SetState 1 context]) ∧
      (keyInfo.action = "com.talon.speech.appstatus".toList →
        UpdateKey (runEvents events (initialState connected)) context keyInfo =
          [Call.SetState 1 context,
           Call.SetTitle "No App".toList context ESDSDKTarget.HardwareAndSoftware,
           Call.SetState 1 context])) := by
  have hinv := runEvents_value_ne_nil events (initialState connected)
    ⟨Finset.not_mem_empty _, Finset.not_mem_empty _, Finset.not_mem_empty _⟩
  refine ⟨hinv, ?_⟩
  intro hempty
  refine ⟨?_, ?_, ?_⟩
  · intro h
    rw [UpdateKey_tag _ context keyInfo h, UpdateTagStatusKey_empty _ context keyInfo hempty,
      if_neg hinv.2.1]
  · intro h
    rw [UpdateKey_mode _ context keyInfo h, UpdateModeStatusKey_empty _ context keyInfo hempty,
      if_neg hinv.1]
  · intro h
    rw [UpdateKey_app _ context keyInfo h, UpdateAppStatusKey_empty _ context keyInfo hempty,
      if_neg hinv.2.2]

/-- Witness of C18: a run with a successful reload, a key appearing with no settings, a
key release, and a reload of a file with a space-only value line; the tag-status key with
an empty `monitorValue` ends on `SetState(1)`. -/
theorem reachable_no_empty_value_witness :
    UpdateKey
        (runEvents
          [Event.updateStatus (some sampleContent),
           Event.willAppear "com.talon.speech.tagstatus".toList "ctx".toList
             { coordinates := none, settings := none } "dev".toList,
           Event.keyUp ⟨true, true⟩ "ctx".toList,
           Event.updateStatus (some "tag \nend".toList)]
          (initialState true))
        "ctx".toList { action := "com.talon.speech.tagstatus".toList, monitorValue := [] } =
      [Call.SetState 1 "ctx".toList,
       Call.SetTitle "No Tag".toList "ctx".toList ESDSDKTarget.HardwareAndSoftware,
       Call.SetState 1 "ctx".toList] :=
  ((reachable_no_empty_value
    [Event.updateStatus (some sampleContent),
     Event.willAppear "com.talon.speech.tagstatus".toList "ctx".toList
       { coordinates := none, settings := none } "dev".toList,
     Event.keyUp ⟨true, true⟩ "ctx".toList,
     Event.updateStatus (some "tag \nend".toList)]
    true "ctx".toList
    { action := "com.talon.speech.tagstatus".toList, monitorValue := [] }).2 rfl).1 rfl

/-- C19: a failed `UpdateStatus` (the file cannot be opened, has no lines, has a last line
other than `end`, or has before its last line a line with no space, with its first space
first or last, or with a type other than `mode`, `tag`, `app`) empties the three sets,
issues no call on the connection manager and leaves the button table unchanged, for every
prior state. -/
theorem UpdateStatus_failure_frame (file : Option Str) (s : State)
    (hfail : file = none ∨ ∃ content, file = some content ∧
      (readLines content = [] ∨ (readLines content).getLast? ≠ some endLine ∨
        ∃ line ∈ (readLines content).dropLast,
          SPACE ∉ line ∨ (∃ r, line = SPACE :: r) ∨ (∃ p, SPACE ∉ p ∧ line = p ++ [SPACE]) ∨
          (∃ p r, line = p ++ SPACE :: r ∧ SPACE ∉ p ∧
            p ≠ typeMode ∧ p ≠ typeTag ∧ p ≠ typeApp))) :
    UpdateStatus file s = (ClearStatus s, []) ∧
    (UpdateStatus file s).1.modes = ∅ ∧ (UpdateStatus file s).1.tags = ∅ ∧
    (UpdateStatus file s).1.apps = ∅ ∧
    (UpdateStatus file s).2 = [] ∧
    (UpdateStatus file s).1.keysByContext = s.keysByContext ∧
    (UpdateStatus file s).1.connected = s.connected := by
  have hu : UpdateStatus file s = (ClearStatus s, []) := by
    rcases hfail with rfl | ⟨content, rfl, hc⟩
    · rfl
    · rcases hc with h | h | ⟨line, hmem, hline⟩
      · unfold UpdateStatus
        simp only [h]
        rfl
      · unfold UpdateStatus
        simp only
        split_ifs <;> rfl
      · apply UpdateStatus_of_parse_none
        apply parseLines_none_of_mem _ line hmem
        intro acc
        rcases hline with h | ⟨r, rfl⟩ | ⟨p, hp, rfl⟩ | ⟨p, r, rfl, hp, h1, h2, h3⟩
        · exact parseLine_no_space acc line h
        · exact parseLine_space_first acc r
        · exact parseLine_space_last acc p hp
        · exact parseLine_unknown_type acc p r hp h1 h2 h3
  rw [hu]
  exact ⟨rfl, rfl, rfl, rfl, rfl, rfl, rfl⟩

/-- Witness of C19: a file that cannot be opened, and a file with an unknown type after a
valid line, both from `sampleState`, whose table holds three keys. -/
theorem UpdateStatus_failure_frame_witness :
    UpdateStatus none sampleState = (ClearStatus sampleState, []) ∧
    "mod sleep".toList ∈ (readLines "tag a\nmod sleep\nend".toList).dropLast ∧
    UpdateStatus (some "tag a\nmod sleep\nend".toList) sampleState =
      (ClearStatus sampleState, []) ∧
    (ClearStatus sampleState).keysByContext.length = 3 :=
  ⟨(UpdateStatus_failure_frame none sampleState (Or.inl rfl)).1,
    by decide,
    (UpdateStatus_failure_frame (some "tag a\nmod sleep\nend".toList) sampleState
      (Or.inr ⟨_, rfl, Or.inr (Or.inr ⟨"mod sleep".toList, by decide,
        Or.inr (Or.inr (Or.inr ⟨"mod".toList, "sleep".toList, by decide, by decide,
          by decide, by decide, by decide⟩))⟩)⟩)).1,
    by decide⟩

/-! ## Line splitting: the properties -/

theorem readLinesAux_no_newline (cur l : Str) (h : NEWLINE ∉ l) :
    readLinesAux cur l = if cur ++ l = [] then [] else [cur ++ l] := by
  induction l generalizing cur with
  | nil => simp [readLinesAux]
  | cons c cs ih =>
    have hc : c ≠ NEWLINE := fun e => h (by rw [e]; exact List.mem_cons_self _ _)
    have hcs : NEWLINE ∉ cs := fun e => h (List.mem_cons_of_mem _ e)
    rw [readLinesAux, if_neg hc, ih (cur ++ [c]) hcs]
    simp

theorem readLinesAux_line (cur l rest : Str) (h : NEWLINE ∉ l) :
    readLinesAux cur (l ++ NEWLINE :: rest) = (cur ++ l) :: readLinesAux [] rest := by
  induction l generalizing cur with
  | nil => simp [readLinesAux]
  | cons c cs ih =>
    have hc : c ≠ NEWLINE := fun e => h (by rw [e]; exact List.mem_cons_self _ _)
    have hcs : NEWLINE ∉ cs := fun e => h (List.mem_cons_of_mem _ e)
    rw [List.cons_append, readLinesAux, if_neg hc, ih (cur ++ [c]) hcs]
    simp

theorem readLines_bodyText (body : List Str) (rest : Str)
    (h : ∀ line ∈ body, NEWLINE ∉ line) :
    readLines (bodyText body ++ rest) = body ++ readLines rest := by
  induction body with
  | nil => rfl
  | cons line more ih =>
    have h1 : NEWLINE ∉ line := h line (List.mem_cons_self _ _)
    have h2 : ∀ l ∈ more, NEWLINE ∉ l := fun l hl => h l (List.mem_cons_of_mem _ hl)
    have e : bodyText (line :: more) ++ rest = line ++ NEWLINE :: (bodyText more ++ rest) := by
      simp [bodyText]
    rw [e]
    unfold readLines
    rw [readLinesAux_line [] line _ h1]
    have := ih h2
    unfold readLines at this
    rw [this]
    rfl

theorem UpdateStatus_of_last_ne (content : Str) (s : State)
    (h : (readLines content).getLast? ≠ some endLine) :
    UpdateStatus (some content) s = (ClearStatus s, []) := by
  unfold UpdateStatus
  simp only
  split_ifs <;> rfl

/-- C20: with the file split into lines as repeated `std::getline` does, for every body of
well-formed lines (none containing a line feed, each of a length that is a `size_t`), the
contents `B + "end"` and `B + "end\n"` both have the lines of `B` followed by `end`, both
reload successfully, and give the same state and calls; the sets hold exactly the values of
the body lines. The contents `B + "end\n\n"` (last line empty) and `B + "end\r\n"` (last
line `end\r`) both take the `ClearStatus` path. In particular `mode sleep\nend\n` gives
modes = {`sleep`}. -/
theorem UpdateStatus_trailing_newline (body : List Str) (s : State)
    (hnl : ∀ line ∈ body, NEWLINE ∉ line)
    (hwf : ∀ line ∈ body, WellFormedLine line)
    (hlen : ∀ line ∈ body, line.length < SIZE_MOD) :
    readLines (bodyText body ++ endLine) = body ++ [endLine] ∧
    readLines (bodyText body ++ (endLine ++ [NEWLINE])) = body ++ [endLine] ∧
    readLines (bodyText body ++ (endLine ++ [NEWLINE, NEWLINE])) = body ++ [endLine, []] ∧
    readLines (bodyText body ++ (endLine ++ [CR, NEWLINE])) = body ++ [endLine ++ [CR]] ∧
    (∃ out, parseLines body ⟨∅, ∅, ∅⟩ = some out ∧
      UpdateStatus (some (bodyText body ++ endLine)) s =
        ({ s with modes := out.modes, tags := out.tags, apps := out.apps },
          UpdateKeys { s with modes := out.modes, tags := out.tags, apps := out.apps }) ∧
      (∀ v, v ∈ out.modes ↔ typeMode ++ SPACE :: v ∈ body) ∧
      (∀ v, v ∈ out.tags ↔ typeTag ++ SPACE :: v ∈ body) ∧
      (∀ v, v ∈ out.apps ↔ typeApp ++ SPACE :: v ∈ body)) ∧
    UpdateStatus (some (bodyText body ++ (endLine ++ [NEWLINE]))) s =
      UpdateStatus (some (bodyText body ++ endLine)) s ∧
    UpdateStatus (some (bodyText body ++ (endLine ++ [NEWLINE, NEWLINE]))) s =
      (ClearStatus s, []) ∧
    UpdateStatus (some (bodyText body ++ (endLine ++ [CR, NEWLINE]))) s =
      (ClearStatus s, []) ∧
    (UpdateStatus (some "mode sleep\nend\n".toList) s).1.modes = {"sleep".toList} := by
  have r1 : readLines (bodyText body ++ endLine) = body ++ [endLine] := by
    rw [readLines_bodyText body _ hnl]
    rfl
  have r2 : readLines (bodyText body ++ (endLine ++ [NEWLINE])) = body ++ [endLine] := by
    rw [readLines_bodyText body _ hnl]
    rfl
  have r3 : readLines (bodyText body ++ (endLine ++ [NEWLINE, NEWLINE])) =
      body ++ [endLine, []] := by
    rw [readLines_bodyText body _ hnl]
    rfl
  have r4 : readLines (bodyText body ++ (endLine ++ [CR, NEWLINE])) =
      body ++ [endLine ++ [CR]] := by
    rw [readLines_bodyText body _ hnl]
    rfl
  have l3 : (body ++ [endLine, []]).getLast? ≠ some endLine := by
    have e : body ++ [endLine, []] = (body ++ [endLine]) ++ [[]] := by simp
    rw [e, List.getLast?_concat]
    decide
  have l4 : (body ++ [endLine ++ [CR]]).getLast? ≠ some endLine := by
    rw [List.getLast?_concat]
    decide
  obtain ⟨out, ho, hu, hm, ht, ha⟩ :=
    UpdateStatus_wellFormed (bodyText body ++ endLine) body s r1 hwf hlen
  refine ⟨r1, r2, r3, r4, ⟨out, ho, hu, hm, ht, ha⟩, ?_, ?_, ?_, ?_⟩
  · rw [UpdateStatus_of_lines _ body s r2, UpdateStatus_of_lines _ body s r1]
  · exact UpdateStatus_of_last_ne _ s (by rw [r3]; exact l3)
  · exact UpdateStatus_of_last_ne _ s (by rw [r4]; exact l4)
  · have hr : readLines "mode sleep\nend\n".toList = ["mode sleep".toList] ++ [endLine] := by
      decide
    have hp : parseLines ["mode sleep".toList] ⟨∅, ∅, ∅⟩ = some ⟨{"sleep".toList}, ∅, ∅⟩ := by
      decide
    rw [UpdateStatus_of_lines _ _ s hr, hp]

/-- Witness of C20 on `sampleBody`: with one final line feed the file reloads to the same
state and calls; with a blank last line it is cleared. -/
theorem UpdateStatus_trailing_newline_witness :
    (∀ line ∈ sampleBody, NEWLINE ∉ line) ∧
    (∀ line ∈ sampleBody, WellFormedLine line) ∧
    (∀ line ∈ sampleBody, line.length < SIZE_MOD) ∧
    bodyText sampleBody ++ endLine = sampleContent ∧
    UpdateStatus (some (bodyText sampleBody ++ (endLine ++ [NEWLINE]))) sampleState =
      UpdateStatus (some (bodyText sampleBody ++ endLine)) sampleState ∧
    UpdateStatus (some (bodyText sampleBody ++ (endLine ++ [NEWLINE, NEWLINE]))) sampleState =
      (ClearStatus sampleState, []) :=
  have h := UpdateStatus_trailing_newline sampleBody sampleState (by decide)
    sampleBody_wellFormed (by decide)
  ⟨by decide, sampleBody_wellFormed, by decide, by decide, h.2.2.2.2.2.1, h.2.2.2.2.2.2.1⟩

/-! ## Locking discipline: the properties -/

theorem lockDiscipline_data_append (l rest : List Access)
    (h : ∀ a ∈ l, a ≠ Access.acquire ∧ a ≠ Access.release) :
    lockDiscipline true (l ++ rest) = lockDiscipline true rest := by
  induction l with
  | nil => rfl
  | cons a more ih =>
    have ha := h a (List.mem_cons_self _ _)
    have hmore := ih (fun b hb => h b (List.mem_cons_of_mem _ hb))
    cases a with
    | acquire => exact absurd rfl ha.1
    | release => exact absurd rfl ha.2
    | readStatus => simpa [lockDiscipline] using hmore
    | writeStatus => simpa [lockDiscipline] using hmore
    | readKeys => simpa [lockDiscipline] using hmore
    | writeKeys => simpa [lockDiscipline] using hmore

theorem UpdateKeyAccesses_data (keyInfo : KeyInfo) :
    ∀ a ∈ UpdateKeyAccesses keyInfo, a ≠ Access.acquire ∧ a ≠ Access.release := by
  intro a ha
  unfold UpdateKeyAccesses at ha
  split_ifs at ha <;> simp at ha <;> subst ha <;> exact ⟨by decide, by decide⟩

theorem UpdateKeysAccesses_data (s : State) :
    ∀ a ∈ UpdateKeysAccesses s, a ≠ Access.acquire ∧ a ≠ Access.release := by
  intro a ha
  unfold UpdateKeysAccesses at ha
  split_ifs at ha
  · simp at ha
  · simp at ha
    subst ha
    exact ⟨by decide, by decide⟩
  · rcases List.mem_cons.mp ha with e | hin
    · subst e
      exact ⟨by decide, by decide⟩
    · obtain ⟨entry, _, he⟩ := List.mem_flatMap.mp hin
      rcases List.mem_cons.mp he with e | hin2
      · subst e
        exact ⟨by decide, by decide⟩
      · exact UpdateKeyAccesses_data entry.2 a hin2

theorem lockDiscipline_guarded (first : Access) (s : State)
    (hfirst : first = Access.writeStatus ∨ first = Access.writeKeys) :
    lockDiscipline false
      ([Access.acquire, first] ++ UpdateKeysAccesses s ++ [Access.release]) = true := by
  have h := lockDiscipline_data_append (UpdateKeysAccesses s) [Access.release]
    (UpdateKeysAccesses_data s)
  rcases hfirst with rfl | rfl <;>
    simpa [lockDiscipline] using h

/-- The three siblings of `KeyUpForAction` follow the discipline for every input:
`WillAppearForAction` and `WillDisappearForAction` hold the guard over all their accesses,
and every path of `UpdateStatus` takes it once around its writes. -/
theorem lockDiscipline_siblings (inAction inContext : Str) (inPayload : Payload)
    (inDeviceID : Str) (file : Option Str) (s : State) :
    lockDiscipline false
      (WillAppearForActionAccesses inAction inContext inPayload inDeviceID s) = true ∧
    lockDiscipline false (WillDisappearForActionAccesses inContext s) = true ∧
    lockDiscipline false (UpdateStatusAccesses file s) = true := by
  refine ⟨lockDiscipline_guarded _ _ (Or.inr rfl), lockDiscipline_guarded _ _ (Or.inr rfl), ?_⟩
  have hclear : lockDiscipline false ClearStatusAccesses = true := by decide
  unfold UpdateStatusAccesses
  cases file with
  | none => exact hclear
  | some content =>
    simp only
    split_ifs
    · exact hclear
    · exact hclear
    · cases parseLines (readLines content).dropLast ⟨∅, ∅, ∅⟩ with
      | none => exact hclear
      | some parsed =>
        have h := lockDiscipline_data_append
          (UpdateKeysAccesses
            { s with modes := parsed.modes, tags := parsed.tags, apps := parsed.apps })
          [Access.release] (UpdateKeysAccesses_data _)
        simpa [lockDiscipline] using h

/-- C15 fails on the code: `KeyUpForAction` constructs no guard, so on the release of the
key `ctxB` of `pressState` its two reads of `_keysByContext` happen with the mutex not
held, whereas `WillDisappearForAction` for the same key follows the discipline. -/
theorem KeyUpForAction_unguarded :
    KeyUpForActionAccesses "ctxB".toList pressState = [Access.readKeys, Access.readKeys] ∧
    lockDiscipline false (KeyUpForActionAccesses "ctxB".toList pressState) = false ∧
    lockDiscipline false (WillDisappearForActionAccesses "ctxB".toList pressState) = true := by
  decide

/-! ## Key release: the properties -/

theorem mapFind_mem (context : Str) (keyInfo : KeyInfo) (table : List (Str × KeyInfo))
    (h : mapFind context table = some keyInfo) : (context, keyInfo) ∈ table := by
  induction table with
  | nil => exact Option.noConfusion h
  | cons entry rest ih =>
    rw [mapFind_cons] at h
    by_cases he : entry.1 = context
    · rw [if_pos he] at h
      have h2 : entry.2 = keyInfo := Option.some.inj h
      have e : entry = (context, keyInfo) := Prod.ext he h2
      rw [e]
      exact List.mem_cons_self _ _
    · rw [if_neg he] at h
      exact List.mem_cons_of_mem _ (ih h)

theorem c_str_of_no_nul (action : Str) (h : NUL ∉ action) : c_str action = action := by
  unfold c_str
  rw [List.takeWhile_eq_self_iff]
  intro c hc
  exact decide_eq_true (fun e => h (e ▸ hc))

theorem KeyUpForAction_calls (repl : ReplOutcome) (inContext : Str) (s : State) :
    KeyUpForAction repl inContext s =
      (s, match mapFind inContext s.keysByContext with
          | none => []
          | some keyInfo =>
            if keyInfo.pressAction = [] then []
            else ExecuteTalonReplAction repl keyInfo.pressAction) := by
  unfold KeyUpForAction
  cases mapFind inContext s.keysByContext with
  | none => rfl
  | some keyInfo =>
    by_cases he : keyInfo.pressAction = []
    · simp [he]
    · simp [he]

theorem popen_mem_ExecuteTalonReplAction (repl : ReplOutcome) (action : Str) :
    ReplCall.popen ReplPath "w".toList ∈ ExecuteTalonReplAction repl action := by
  unfold ExecuteTalonReplAction
  split_ifs <;> exact List.mem_cons_self _ _

theorem fputs_mem_ExecuteTalonReplAction (repl : ReplOutcome) (action text : Str)
    (h : ReplCall.fputs text ∈ ExecuteTalonReplAction repl action) :
    repl.popenOk = true ∧ text = c_str action := by
  unfold ExecuteTalonReplAction at h
  split_ifs at h with h1 h2
  · simp at h
  · simp at h
    exact ⟨by simpa using h1, h⟩
  · simp at h
    exact ⟨by simpa using h1, h⟩

/-- C13, as stated, fails. With `popen` and `fputs` succeeding, releasing the key `ctxN`,
whose press action is `a`, NUL, `b`, writes only `a` to the interpreter: the text is not
the press action verbatim. With `popen` failing, releasing the key `ctxB` of `pressState`,
whose press action is non-empty, writes nothing to the interpreter. -/
theorem KeyUpForAction_not_verbatim_counterexample :
    (KeyUpForAction ⟨true, true⟩ "ctxN".toList nulPressState).2 =
      [ReplCall.popen ReplPath "w".toList, ReplCall.fputs ['a'], ReplCall.pclose] ∧
    ReplCall.fputs ['a', NUL, 'b'] ∉
      (KeyUpForAction ⟨true, true⟩ "ctxN".toList nulPressState).2 ∧
    mapFind "ctxB".toList pressState.keysByContext =
      some { action := "com.talon.speech.tagstatus".toList,
             monitorValue := "anything".toList,
             pressAction := "actions.speech.toggle()".toList } ∧
    (KeyUpForAction ⟨false, true⟩ "ctxB".toList pressState).2 =
      [ReplCall.popen ReplPath "w".toList] := by
  decide

/-- C13, amended: for every button table, every context and every outcome of the C
library calls, `KeyUpForAction` leaves the status sets and the button table unchanged. A
context that is not a key of the table makes no call on the interpreter. With unique keys,
as in a `std::map`, the interpreter is launched (`popen`) exactly when the context is the
key of an entry with a non-empty `pressAction`. Every text written (`fputs`) is written
after a successful launch and is the C string of that entry's `pressAction`; when the
launch succeeds and `pressAction` holds no NUL, the calls are `popen`, `fputs` of
`pressAction` verbatim, and `pclose` if the write succeeded. -/
theorem KeyUpForAction_forwards (repl : ReplOutcome) (inContext : Str) (s : State) :
    (KeyUpForAction repl inContext s).1 = s ∧
    (inContext ∉ s.keysByContext.map Prod.fst → (KeyUpForAction repl inContext s).2 = []) ∧
    ((s.keysByContext.map Prod.fst).Nodup →
      ((∃ command mode,
          ReplCall.popen command mode ∈ (KeyUpForAction repl inContext s).2) ↔
        ∃ keyInfo, (inContext, keyInfo) ∈ s.keysByContext ∧ keyInfo.pressAction ≠ [])) ∧
    (∀ text, ReplCall.fputs text ∈ (KeyUpForAction repl inContext s).2 →
      repl.popenOk = true ∧
      ∃ keyInfo, (inContext, keyInfo) ∈ s.keysByContext ∧ keyInfo.pressAction ≠ [] ∧
        text = c_str keyInfo.pressAction) ∧
    (∀ keyInfo, (inContext, keyInfo) ∈ s.keysByContext →
      (s.keysByContext.map Prod.fst).Nodup → keyInfo.pressAction ≠ [] →
      repl.popenOk = true → NUL ∉ keyInfo.pressAction →
      (KeyUpForAction repl inContext s).2 =
        ReplCall.popen ReplPath "w".toList :: ReplCall.fputs keyInfo.pressAction ::
          (if repl.fputsOk = true then [ReplCall.pclose] else [])) := by
  have hcalls := KeyUpForAction_calls repl inContext s
  have hfound : ∀ keyInfo, (inContext, keyInfo) ∈ s.keysByContext →
      (s.keysByContext.map Prod.fst).Nodup →
      (KeyUpForAction repl inContext s).2 =
        if keyInfo.pressAction = [] then []
        else ExecuteTalonReplAction repl keyInfo.pressAction := by
    intro keyInfo hmem hnd
    rw [hcalls, mapFind_of_mem inContext keyInfo s.keysByContext hmem hnd]
  have hmissing : inContext ∉ s.keysByContext.map Prod.fst →
      (KeyUpForAction repl inContext s).2 = [] := by
    intro h
    rw [hcalls, mapFind_of_not_mem inContext s.keysByContext h]
  refine ⟨by rw [hcalls], hmissing, ?_, ?_, ?_⟩
  · intro hnd
    constructor
    · rintro ⟨command, mode, hc⟩
      by_cases hin : inContext ∈ s.keysByContext.map Prod.fst
      · obtain ⟨entry, he, hfst⟩ := List.mem_map.mp hin
        have hmem : (inContext, entry.2) ∈ s.keysByContext := by
          rw [← hfst]
          exact he
        refine ⟨entry.2, hmem, ?_⟩
        intro hempty
        rw [hfound entry.2 hmem hnd, if_pos hempty] at hc
        exact absurd hc (List.not_mem_nil _)
      · rw [hmissing hin] at hc
        exact absurd hc (List.not_mem_nil _)
    · rintro ⟨keyInfo, hmem, hne⟩
      refine ⟨ReplPath, "w".toList, ?_⟩
      rw [hfound keyInfo hmem hnd, if_neg hne]
      exact popen_mem_ExecuteTalonReplAction repl keyInfo.pressAction
  · intro text ht
    rw [hcalls] at ht
    cases hf : mapFind inContext s.keysByContext with
    | none =>
      rw [hf] at ht
      exact absurd ht (List.not_mem_nil _)
    | some keyInfo =>
      rw [hf] at ht
      by_cases he : keyInfo.pressAction = []
      · simp only [if_pos he] at ht
        exact absurd ht (List.not_mem_nil _)
      · simp only [if_neg he] at ht
        obtain ⟨hp, htext⟩ := fputs_mem_ExecuteTalonReplAction repl _ text ht
        exact ⟨hp, keyInfo, mapFind_mem inContext keyInfo _ hf, he, htext⟩
  · intro keyInfo hmem hnd hne hp hnul
    rw [hfound keyInfo hmem hnd, if_neg hne]
    unfold ExecuteTalonReplAction
    rw [c_str_of_no_nul keyInfo.pressAction hnul]
    cases hw : repl.fputsOk <;> simp [hp]

/-- Witness of the amended C13 on `pressState`: releasing `ctxB` with a working
interpreter writes its press action verbatim and closes the pipe; releasing the unknown
context `ctxZ` makes no call. -/
theorem KeyUpForAction_forwards_witness :
    (pressState.keysByContext.map Prod.fst).Nodup ∧
    NUL ∉ "actions.speech.toggle()".toList ∧
    (KeyUpForAction ⟨true, true⟩ "ctxB".toList pressState).2 =
      [ReplCall.popen ReplPath "w".toList,
       ReplCall.fputs "actions.speech.toggle()".toList, ReplCall.pclose] ∧
    "ctxZ".toList ∉ pressState.keysByContext.map Prod.fst ∧
    (KeyUpForAction ⟨true, true⟩ "ctxZ".toList pressState).2 = [] :=
  ⟨by decide, by decide,
    (KeyUpForAction_forwards ⟨true, true⟩ "ctxB".toList pressState).2.2.2.2
      { action := "com.talon.speech.tagstatus".toList, monitorValue := "anything".toList,
        pressAction := "actions.speech.toggle()".toList }
      (by decide) (by decide) (by decide) rfl (by decide),
    by decide,
    (KeyUpForAction_forwards ⟨true, true⟩ "ctxZ".toList pressState).2.1 (by decide)⟩

/-! ## Empty watch value in the states of a run -/

theorem strLt_irrefl (a : Str) : strLt a a = false := by
  induction a with
  | nil => rfl
  | cons c cs ih => simp [strLt, ih]

theorem Char_eq_of_toNat_eq (a b : Char) (h : a.toNat = b.toNat) : a = b := by
  rw [← Char.ofNat_toNat a, ← Char.ofNat_toNat b, h]

theorem strLt_eq_of_not_lt (a b : Str) (h1 : strLt a b = false) (h2 : strLt b a = false) :
    a = b := by
  induction a generalizing b with
  | nil =>
    cases b with
    | nil => rfl
    | cons d ds => simp [strLt] at h1
  | cons c cs ih =>
    cases b with
    | nil => simp [strLt] at h2
    | cons d ds =>
      unfold strLt at h1 h2
      by_cases hcd : c.toNat < d.toNat
      · simp [hcd] at h1
      · by_cases hdc : d.toNat < c.toNat
        · simp [hdc] at h2
        · simp only [if_neg hcd, if_neg hdc] at h1 h2
          have hc : c = d := Char_eq_of_toNat_eq c d (by omega)
          rw [hc, ih ds h1 h2]

theorem mapFind_mapAssign_self (context : Str) (key : KeyInfo) (table : List (Str × KeyInfo)) :
    mapFind context (mapAssign context key table) = some key := by
  induction table with
  | nil => simp [mapAssign, mapFind_cons]
  | cons entry rest ih =>
    unfold mapAssign
    by_cases h1 : strLt context entry.1 = true
    · rw [if_pos h1, mapFind_cons, if_pos rfl]
    · rw [if_neg h1]
      by_cases h2 : strLt entry.1 context = true
      · rw [if_pos h2, mapFind_cons]
        have hne : entry.1 ≠ context := by
          intro e
          rw [e, strLt_irrefl] at h2
          exact Bool.noConfusion h2
        rw [if_neg hne]
        exact ih
      · rw [if_neg h2, mapFind_cons, if_pos rfl]

theorem mapFind_mapAssign_other (context other : Str) (key : KeyInfo)
    (table : List (Str × KeyInfo)) (hne : other ≠ context) :
    mapFind other (mapAssign context key table) = mapFind other table := by
  induction table with
  | nil =>
    simp only [mapAssign]
    rw [mapFind_cons, if_neg (fun e => hne e.symm)]
  | cons entry rest ih =>
    unfold mapAssign
    by_cases h1 : strLt context entry.1 = true
    · rw [if_pos h1, mapFind_cons, if_neg (fun e => hne e.symm)]
    · rw [if_neg h1]
      by_cases h2 : strLt entry.1 context = true
      · rw [if_pos h2, mapFind_cons, mapFind_cons, ih]
      · rw [if_neg h2]
        have he : context = entry.1 :=
          strLt_eq_of_not_lt context entry.1 (by simpa using h1) (by simpa using h2)
        rw [mapFind_cons, mapFind_cons, if_neg (fun e => hne e.symm),
          if_neg (fun e => hne (e.symm.trans he.symm))]

theorem mem_mapAssign_self (context : Str) (key : KeyInfo) (table : List (Str × KeyInfo)) :
    (context, key) ∈ mapAssign context key table :=
  mapFind_mem context key _ (mapFind_mapAssign_self context key table)

theorem mem_mapErase (context : Str) (table : List (Str × KeyInfo)) (entry : Str × KeyInfo) :
    entry ∈ mapErase context table ↔ entry ∈ table ∧ entry.1 ≠ context := by
  unfold mapErase
  rw [List.mem_filter, decide_eq_true_iff]

theorem mapFind_mapErase_self (context : Str) (table : List (Str × KeyInfo)) :
    mapFind context (mapErase context table) = none := by
  apply mapFind_of_not_mem
  intro h
  obtain ⟨entry, he, hfst⟩ := List.mem_map.mp h
  exact ((mem_mapErase context table entry).mp he).2 hfst

theorem mapFind_mapErase_other (context other : Str) (table : List (Str × KeyInfo))
    (hne : other ≠ context) :
    mapFind other (mapErase context table) = mapFind other table := by
  induction table with
  | nil => rfl
  | cons entry rest ih =>
    have ih2 : mapFind other (List.filter (fun e => decide (e.1 ≠ context)) rest) =
        mapFind other rest := ih
    unfold mapErase
    rw [List.filter_cons]
    by_cases he : entry.1 = context
    · rw [if_neg (by simpa using he), ih2, mapFind_cons,
        if_neg (fun e => hne (e.symm.trans he))]
    · rw [if_pos (by simpa using he), mapFind_cons, mapFind_cons, ih2]

/-! ## Visibility events: the properties -/

theorem UpdateKeys_context (s : State) :
    ∀ call ∈ UpdateKeys s, ∃ entry ∈ s.keysByContext, call.context = entry.1 := by
  intro call hc
  unfold UpdateKeys at hc
  split_ifs at hc
  · exact absurd hc (List.not_mem_nil _)
  · obtain ⟨entry, he, hcall⟩ := List.mem_flatMap.mp hc
    exact ⟨entry, he, UpdateKey_context s entry.1 entry.2 call hcall⟩

/-- C11, amended: a button-visibility event does not reload the status store. For every
state and all arguments, `WillAppearForAction` and `WillDisappearForAction` leave the three
status sets and the connection as they are and change only the button table: after
`WillAppearForAction` the context maps to the key built from the arguments of the event,
after `WillDisappearForAction` the context has no entry, and the lookup of every other
context is unchanged. The calls issued are those of `UpdateKeys` on the stored sets and the
new table: with a connection the appearing key receives the calls of its reconciliation
against the stored sets, and no call is addressed to the disappearing context. -/
theorem visibility_keeps_snapshot (inAction inContext : Str) (inPayload : Payload)
    (inDeviceID : Str) (s : State) :
    ((WillAppearForAction inAction inContext inPayload inDeviceID s).1.snapshot = s.snapshot ∧
      (WillAppearForAction inAction inContext inPayload inDeviceID s).1.connected =
        s.connected ∧
      mapFind inContext
          (WillAppearForAction inAction inContext inPayload inDeviceID s).1.keysByContext =
        some (keyOfPayload inAction inPayload inDeviceID) ∧
      (∀ other, other ≠ inContext →
        mapFind other
            (WillAppearForAction inAction inContext inPayload inDeviceID s).1.keysByContext =
          mapFind other s.keysByContext) ∧
      (WillAppearForAction inAction inContext inPayload inDeviceID s).2 =
        UpdateKeys
          { s with
            keysByContext :=
              (WillAppearForAction inAction inContext inPayload inDeviceID s).1.keysByContext } ∧
      (s.connected = true →
        ∀ call ∈ UpdateKey s inContext (keyOfPayload inAction inPayload inDeviceID),
          call ∈ (WillAppearForAction inAction inContext inPayload inDeviceID s).2)) ∧
    ((WillDisappearForAction inContext s).1.snapshot = s.snapshot ∧
      (WillDisappearForAction inContext s).1.connected = s.connected ∧
      mapFind inContext (WillDisappearForAction inContext s).1.keysByContext = none ∧
      (∀ entry, entry ∈ (WillDisappearForAction inContext s).1.keysByContext ↔
        entry ∈ s.keysByContext ∧ entry.1 ≠ inContext) ∧
      (∀ other, other ≠ inContext →
        mapFind other (WillDisappearForAction inContext s).1.keysByContext =
          mapFind other s.keysByContext) ∧
      (WillDisappearForAction inContext s).2 =
        UpdateKeys
          { s with keysByContext := (WillDisappearForAction inContext s).1.keysByContext } ∧
      (∀ call ∈ (WillDisappearForAction inContext s).2, call.context ≠ inContext)) := by
  refine ⟨⟨rfl, rfl, ?_, ?_, rfl, ?_⟩, ⟨rfl, rfl, ?_, ?_, ?_, rfl, ?_⟩⟩
  · exact mapFind_mapAssign_self inContext _ s.keysByContext
  · intro other hne
    exact mapFind_mapAssign_other inContext other _ s.keysByContext hne
  · intro hconn call hcall
    have hk : (WillAppearForAction inAction inContext inPayload inDeviceID s).2 =
        (mapAssign inContext (keyOfPayload inAction inPayload inDeviceID)
          s.keysByContext).flatMap
          (fun entry =>
            UpdateKey (WillAppearForAction inAction inContext inPayload inDeviceID s).1
              entry.1 entry.2) :=
      UpdateKeys_connected
        (WillAppearForAction inAction inContext inPayload inDeviceID s).1 hconn
    rw [hk]
    exact List.mem_flatMap.mpr
      ⟨(inContext, keyOfPayload inAction inPayload inDeviceID),
        mem_mapAssign_self inContext _ s.keysByContext, hcall⟩
  · exact mapFind_mapErase_self inContext s.keysByContext
  · intro entry
    exact mem_mapErase inContext s.keysByContext entry
  · intro other hne
    exact mapFind_mapErase_other inContext other s.keysByContext hne
  · intro call hcall
    obtain ⟨entry, he, hctx⟩ := UpdateKeys_context (WillDisappearForAction inContext s).1
      call hcall
    rw [hctx]
    exact ((mem_mapErase inContext s.keysByContext entry).mp he).2

/-- Witness of the amended C11 on `sampleState`, which has a connection: the appearing
tag-status key `ctxD` watching `sleep` is sent `SetState(1)` computed from the stored tags,
and after `ctxB` disappears no call is addressed to it. -/
theorem visibility_keeps_snapshot_witness :
    sampleState.connected = true ∧
    Call.SetState 1 "ctxD".toList ∈
      UpdateKey sampleState "ctxD".toList
        (keyOfPayload "com.talon.speech.tagstatus".toList samplePayload "dev".toList) ∧
    Call.SetState 1 "ctxD".toList ∈
      (WillAppearForAction "com.talon.speech.tagstatus".toList "ctxD".toList samplePayload
        "dev".toList sampleState).2 ∧
    (WillDisappearForAction "ctxB".toList sampleState).2 =
      [Call.SetState 1 "ctxA".toList, Call.SetState 1 "ctxC".toList,
       Call.SetTitle "No Status".toList "ctxC".toList ESDSDKTarget.HardwareAndSoftware] :=
  ⟨rfl, by decide,
    (visibility_keeps_snapshot "com.talon.speech.tagstatus".toList "ctxD".toList
      samplePayload "dev".toList sampleState).1.2.2.2.2.2 rfl _ (by decide),
    ((visibility_keeps_snapshot "com.talon.speech.tagstatus".toList "ctxB".toList
      samplePayload "dev".toList sampleState).2.2.2.2.2.2.1).trans (by decide)⟩

end TalonStreamDeck
